import Mathlib

/-!
Verification of the HBnB vacation-rental API (parts 2 and 3 of the
repository) against its natural-language specification.

The Python code is shallowly embedded: JSON/Python scalar values become
the inductive type `PVal`, dictionaries become association lists or
structures with `Option PVal` fields (where `none` means "key absent"
and `some PVal.vnone` means "key present with value None"), and each
route handler or model method becomes an executable Lean function that
returns the HTTP status together with the updated store.  Wall-clock
timestamps and UUID generation are nondeterministic in Python and are
passed in as explicit parameters.
-/

namespace HBnB

/-- Embedding of the Python/JSON scalar values that flow through the
    HBnB handlers: `None`, `bool`, `int`, `float` (represented exactly
    as a rational; the values compared by this code are all exactly
    representable), and `str`. -/
inductive PVal where
  | vnone
  | vbool (b : Bool)
  | vint (n : Int)
  | vfloat (q : Rat)
  | vstr (s : String)
deriving DecidableEq

namespace PVal

/-- Python's numeric tower as used by `isinstance(v, (int, float))`:
    `bool` is a subclass of `int`, so `True`/`False` count as numbers
    with values 1/0. Returns the numeric value when `v` is numeric. -/
def toNum? : PVal → Option Rat
  | vbool b => some (if b then 1 else 0)
  | vint n => some (n : Rat)
  | vfloat q => some q
  | _ => none

/-- Python truthiness (`bool(v)`) for the embedded scalar values. -/
def truthy : PVal → Bool
  | vnone => false
  | vbool b => b
  | vint n => n != 0
  | vfloat q => q != 0
  | vstr s => s != ""

end PVal

/-- Python `==` on the embedded values: numeric values compare by value
    across `bool`/`int`/`float`, strings compare by content, `None`
    equals only `None`, and cross-kind comparisons are `False`. -/
def pyEq (a b : PVal) : Bool :=
  match a.toNum?, b.toNum? with
  | some x, some y => x == y
  | _, _ =>
    match a, b with
    | .vstr s, .vstr t => s == t
    | .vnone, .vnone => true
    | _, _ => false

/-- `dict.get(k)`: `None` when the key is absent. -/
def getPVal (o : Option PVal) : PVal := o.getD .vnone

/- ### Python string helpers -/

/-- `str.strip()` on the character list: drop whitespace from both
    ends (Python's default strip set; modeled with `Char.isWhitespace`). -/
def stripChars (cs : List Char) : List Char :=
  ((cs.dropWhile Char.isWhitespace).reverse.dropWhile Char.isWhitespace).reverse

/-- `str.strip()`. -/
def pyStrip (s : String) : String := ⟨stripChars s.data⟩

/-- `str.lower()` (the emails handled here are ASCII; modeled with
    `Char.toLower`). -/
def pyLower (s : String) : String := ⟨s.data.map Char.toLower⟩

/-- `email.lower().strip()`, the normal form used by
    `User._normalize_email` and `User.get_by_email` in part 3. -/
def pyNormEmail (s : String) : String := pyStrip (pyLower s)

/-- Value of a nonempty digit string. -/
def digitsVal (cs : List Char) : Nat :=
  cs.foldl (fun a c => a * 10 + (c.toNat - 48)) 0

/-- Split an optional leading `+`/`-` sign, returning the sign as an
    integer factor and the remaining characters. -/
def splitSign : List Char → Int × List Char
  | '+' :: r => (1, r)
  | '-' :: r => (-1, r)
  | r => (1, r)

/-- Python `int(s)` on a string: strip, optional sign, then a nonempty
    run of digits (the underscore-separator extension of CPython is not
    used by any payload considered here and is not modeled). -/
def pyIntOfString (s : String) : Option Int :=
  let cs := stripChars s.data
  let (sgn, rest) := splitSign cs
  if rest ≠ [] ∧ rest.all Char.isDigit then some (sgn * (digitsVal rest : Int))
  else none

/-- Truncation toward zero, the behavior of Python `int(float)`. -/
def ratTrunc (q : Rat) : Int := if 0 ≤ q then ⌊q⌋ else ⌈q⌉

/-- Python `int(v)`: identity on ints, 0/1 on bools, truncation on
    floats, string parsing on strings, and `TypeError` (`none`) on
    `None`. -/
def pyToInt : PVal → Option Int
  | .vbool b => some (if b then 1 else 0)
  | .vint n => some n
  | .vfloat q => some (ratTrunc q)
  | .vstr s => pyIntOfString s
  | .vnone => none

/-- Optional exponent tail of a Python float literal: empty input means
    exponent 0; otherwise `e`/`E`, optional sign, nonempty digits. -/
def pyExpPart (cs : List Char) : Option Int :=
  match cs with
  | [] => some 0
  | c :: r =>
    if c = 'e' ∨ c = 'E' then
      let (sgn, r2) := splitSign r
      if r2 ≠ [] ∧ r2.all Char.isDigit then some (sgn * (digitsVal r2 : Int))
      else none
    else none

/-- The result of a Python `float(...)` conversion: a finite value
    (exact rational), NaN, or a signed infinity.  NaN compares `False`
    under every `<`/`>`/`<=` comparison, which is what lets it slip
    past min/max guards written as `value < min` / `value > max`. -/
inductive PyFloat where
  | finite (q : Rat)
  | nan
  | inf (pos : Bool)
deriving DecidableEq

namespace PyFloat

/-- Python `f < m` for a float `f` and a finite bound `m`: `False` for
    NaN, decided by the sign for infinities. -/
def ltRat (f : PyFloat) (m : Rat) : Bool :=
  match f with
  | finite q => decide (q < m)
  | nan => false
  | inf pos => !pos

/-- Python `f > m` for a float `f` and a finite bound `m`: `False` for
    NaN, decided by the sign for infinities. -/
def gtRat (f : PyFloat) (m : Rat) : Bool :=
  match f with
  | finite q => decide (m < q)
  | nan => false
  | inf pos => pos

/-- Python's chained comparison `lo <= f <= hi`: `False` for NaN and
    for both infinities. -/
def inRange (f : PyFloat) (lo hi : Rat) : Bool :=
  match f with
  | finite q => decide (lo ≤ q) && decide (q ≤ hi)
  | _ => false

end PyFloat

/-- Python `float(s)` on a string: strip, optional sign, then either
    the special spellings `nan` / `inf` / `infinity` (case-insensitive;
    a sign in front of `nan` is ignored), or digits with an optional
    decimal point (at least one digit overall) and an optional
    exponent. -/
def pyFloatOfString (s : String) : Option PyFloat :=
  let cs := stripChars s.data
  let (sgn, r1) := splitSign cs
  let low := r1.map Char.toLower
  if low = "nan".data then some .nan
  else if low = "inf".data ∨ low = "infinity".data then some (.inf (0 ≤ sgn))
  else
    let ip := r1.takeWhile Char.isDigit
    let r2 := r1.dropWhile Char.isDigit
    let (fp, r4) :=
      match r2 with
      | '.' :: r3 => (r3.takeWhile Char.isDigit, r3.dropWhile Char.isDigit)
      | _ => ([], r2)
    if ip = [] ∧ fp = [] then none
    else
      match pyExpPart r4 with
      | none => none
      | some e =>
        some (.finite ((sgn : Rat)
          * ((digitsVal ip : Rat) + (digitsVal fp : Rat) / 10 ^ fp.length)
          * (10 : Rat) ^ e))

/-- Python `float(v)`: exact on ints and (finite JSON) floats, 0/1 on
    bools, string parsing on strings, `TypeError` (`none`) on `None`. -/
def pyToFloat : PVal → Option PyFloat
  | .vbool b => some (.finite (if b then 1 else 0))
  | .vint n => some (.finite (n : Rat))
  | .vfloat q => some (.finite q)
  | .vstr s => pyFloatOfString s
  | .vnone => none

/- ### Association-list model of Python dict (insertion ordered) -/

/-- `d[k] = v`: replace the value at an existing key in place, append a
    new key at the end — Python dict insertion-order semantics. -/
def dictInsert {κ α : Type} [DecidableEq κ] (k : κ) (v : α) :
    List (κ × α) → List (κ × α)
  | [] => [(k, v)]
  | (k', v') :: rest =>
    if k' = k then (k', v) :: rest else (k', v') :: dictInsert k v rest

/-- `d.get(k)`. -/
def dictGet {κ α : Type} [DecidableEq κ] (k : κ) (l : List (κ × α)) : Option α :=
  (l.find? (fun e => e.1 = k)).map (·.2)

/-- `del d[k]`: remove the (unique) entry with key `k`. -/
def dictRemove {κ α : Type} [DecidableEq κ] (k : κ) :
    List (κ × α) → List (κ × α)
  | [] => []
  | (k', v') :: rest => if k' = k then rest else (k', v') :: dictRemove k rest

/-- `k in d`. -/
def dictContains {κ α : Type} [DecidableEq κ] (k : κ) (l : List (κ × α)) : Bool :=
  (dictGet k l).isSome

/- ### The email regex `^[a-zA-Z0-9._%+-]+@[a-zA-Z0-9.-]+\.[a-zA-Z]{2,}$`
   shared by part 2's `User._validate_email`, part 3's `users.py`
   `EMAIL_REGEX` and `ValidationUtils.EMAIL_REGEX`. -/

/-- Character class `[a-zA-Z0-9._%+-]` (the local part). -/
def emailLocalChar (c : Char) : Bool :=
  c.isAlpha || c.isDigit || c = '.' || c = '_' || c = '%' || c = '+' || c = '-'

/-- Character class `[a-zA-Z0-9.-]` (the domain before the last dot). -/
def emailDomChar (c : Char) : Bool :=
  c.isAlpha || c.isDigit || c = '.' || c = '-'

/-- `[a-zA-Z]{2,}$`: at least two letters, nothing after. -/
def emailTldOk (cs : List Char) : Bool :=
  decide (2 ≤ cs.length) && cs.all Char.isAlpha

/-- The part of the regex after the `@`: `[a-zA-Z0-9.-]+\.[a-zA-Z]{2,}$`.
    A backtracking engine accepts iff the text splits at some dot into a
    nonempty `[a-zA-Z0-9.-]+` prefix and an all-letter suffix of length
    at least two. -/
def emailDomOk (dom : List Char) : Bool :=
  (List.range dom.length).any fun i =>
    dom[i]? = some '.' && !(dom.take i).isEmpty && (dom.take i).all emailDomChar
      && emailTldOk (dom.drop (i + 1))

/-- Whether `EMAIL_REGEX.match(s)` succeeds: a nonempty run of local
    characters, an `@`, then a domain accepted by `emailDomOk`.  (The
    `$` of `re` also accepts a match stopping just before one trailing
    newline; no input considered here ends in a newline.) -/
def emailRegexMatch (s : String) : Bool :=
  let cs := s.data
  let loc := cs.takeWhile (fun c => c ≠ '@')
  match cs.dropWhile (fun c => c ≠ '@') with
  | '@' :: dom => !loc.isEmpty && loc.all emailLocalChar && emailDomOk dom
  | _ => false

/- ### Part 3 password validation (three copies in the source) -/

/-- `User._validate_password` (part3/app/models/user.py): `some msg`
    when a `ValueError` is raised, `none` when the password passes. -/
def user_validate_password (v : PVal) : Option String :=
  if !v.truthy then some "Password is required and must be a string"
  else
    match v with
    | .vstr s =>
      if s.length < 6 then some "Password must be at least 6 characters long" else none
    | _ => some "Password is required and must be a string"

/-- `validate_password` (part3/api/v1/users.py): `(is_valid, error_message)`. -/
def users_validate_password (v : PVal) : Bool × Option String :=
  if !v.truthy then (false, some "Password is required")
  else
    match v with
    | .vstr s =>
      if s.length < 6 then (false, some "Password must be at least 6 characters long")
      else (true, none)
    | _ => (false, some "Password is required")

/-- `ValidationUtils.validate_password` (part3/api/v1/validation_utils.py). -/
def vu_validate_password (v : PVal) : Bool × Option String :=
  if !v.truthy then (false, some "Password is required")
  else
    match v with
    | .vstr s =>
      if s.length < 6 then (false, some "Password must be at least 6 characters long")
      else (true, none)
    | _ => (false, some "Password is required")

/-- `validate_email` (part3/api/v1/users.py): `False` for falsy or
    non-string input, else the regex on the stripped string. -/
def users_validate_email (v : PVal) : Bool :=
  match v with
  | .vstr s => if s = "" then false else emailRegexMatch (pyStrip s)
  | _ => false

/-- The property "a non-empty string of length at least 6" used by
    claim C10 to describe acceptable passwords. -/
def passwordAcceptable (v : PVal) : Bool :=
  match v with
  | .vstr s => decide (6 ≤ s.length)
  | _ => false

/- ### Part 2 `InMemoryRepository` (app/persistence/repository.py)

   The repository is generic over the stored objects; `idOf` plays the
   role of reading `obj.id` (every stored object has an `id` attribute,
   so the `hasattr` guard in `add` never fires).  The key type is
   generic because part 2's `BaseModel.update` may overwrite `id` with
   an arbitrary value. -/

structure InMemoryRepository (κ α : Type) where
  _storage : List (κ × α)
  _counter : Int

namespace InMemoryRepository

variable {κ α : Type} [DecidableEq κ]

/-- `__init__`: empty dict, counter 0. -/
def empty : InMemoryRepository κ α := ⟨[], 0⟩

/-- `add(obj)`: refuse when `obj.id` is already a key, else store the
    object under its id and increment the counter. -/
def add (idOf : α → κ) (r : InMemoryRepository κ α) (obj : α) :
    Bool × InMemoryRepository κ α :=
  if dictContains (idOf obj) r._storage then (false, r)
  else (true, ⟨r._storage ++ [(idOf obj, obj)], r._counter + 1⟩)

/-- `get(obj_id)`. -/
def get (r : InMemoryRepository κ α) (objId : κ) : Option α :=
  dictGet objId r._storage

/-- `update(obj_id, data)`: when the object exists, `obj.update(data)`
    mutates it in place (the mutated object is the `newVal` argument;
    `BaseModel.update` never touches the repository itself) and the
    call returns `True`; otherwise `False`. -/
def updateObj (r : InMemoryRepository κ α) (objId : κ) (newVal : α) :
    Bool × InMemoryRepository κ α :=
  match dictGet objId r._storage with
  | some _ => (true, ⟨dictInsert objId newVal r._storage, r._counter⟩)
  | none => (false, r)

/-- `delete(obj_id)`. -/
def delete (r : InMemoryRepository κ α) (objId : κ) :
    Bool × InMemoryRepository κ α :=
  if dictContains objId r._storage then
    (true, ⟨dictRemove objId r._storage, r._counter - 1⟩)
  else (false, r)

/-- `count()`: `len(self._storage)`. -/
def count (r : InMemoryRepository κ α) : Nat := r._storage.length

/-- `clear()`. -/
def clear (_r : InMemoryRepository κ α) : InMemoryRepository κ α := ⟨[], 0⟩

/-- `exists(obj_id)`. -/
def existsId (r : InMemoryRepository κ α) (objId : κ) : Bool :=
  dictContains objId r._storage

/-- `get_all()`. -/
def get_all (r : InMemoryRepository κ α) : List α := r._storage.map (·.2)

end InMemoryRepository

/-- States of an `InMemoryRepository` reachable from a fresh instance
    by `add`, `update`, `delete` and `clear` (claim C8). -/
inductive RepoReach {κ α : Type} [DecidableEq κ] (idOf : α → κ) :
    InMemoryRepository κ α → Prop where
  | init : RepoReach idOf .empty
  | add (r : InMemoryRepository κ α) (obj : α) :
      RepoReach idOf r → RepoReach idOf (r.add idOf obj).2
  | upd (r : InMemoryRepository κ α) (k : κ) (v : α) :
      RepoReach idOf r → RepoReach idOf (r.updateObj k v).2
  | del (r : InMemoryRepository κ α) (k : κ) :
      RepoReach idOf r → RepoReach idOf (r.delete k).2
  | clr (r : InMemoryRepository κ α) :
      RepoReach idOf r → RepoReach idOf r.clear

/- ### ValidationUtils.validate_pagination_params (part 3) -/

/-- `ValidationUtils.validate_pagination_params(page, per_page)`:
    clamp `page` to at least 1 and `per_page` into `[1, 100]`. -/
def validate_pagination_params (page per_page : Int) : Int × Int :=
  (max 1 page, max 1 (min 100 per_page))

/- ### Part 3 `User` model (app/models/user.py) and the registration
   endpoint (api/v1/users.py `UserRegistration.post`) -/

/-- Python exception kinds that escape the embedded functions:
    `ValueError` (carrying its message) and `AttributeError`. -/
inductive PyErr where
  | valueError (msg : String)
  | attributeError
  | typeError
deriving DecidableEq

/-- A row of the `users` table.  Timestamps are opaque ISO strings set
    from the database clock, passed in as a parameter. -/
structure User3 where
  id : String
  email : String
  password_hash : String
  first_name : Option String
  last_name : Option String
  is_admin : Bool
  created_at : Option String
  updated_at : Option String
deriving DecidableEq

/-- `bcrypt.generate_password_hash(...).decode('utf-8')`, modeled
    abstractly: the claims never inspect the digest. -/
def bcryptHash (password : String) : String := "bcrypt-hash:" ++ password

/-- `User._normalize_name`: `name.strip() if name else None`; calling
    `.strip()` on a truthy non-string raises `AttributeError`. -/
def normalizeName3 (v : PVal) : Except PyErr (Option String) :=
  if !v.truthy then .ok none
  else
    match v with
    | .vstr s => .ok (some (pyStrip s))
    | _ => .error .attributeError

/-- `User.__init__` (equivalently `User.create_user`): validate email
    (truthy string containing `@` and `.`), validate password (via
    `_validate_password`), then normalize/assign the fields.  `freshId`
    stands for the generated UUID and `now` for the database-clock
    timestamps. -/
def userNew3 (freshId : String) (now : Option String)
    (email password first_name last_name is_admin : PVal) :
    Except PyErr User3 :=
  match email with
  | .vstr es =>
    if es = "" then .error (.valueError "Email is required and must be a string")
    else if !(es.data.contains '@') || !(es.data.contains '.') then
      .error (.valueError "Invalid email format")
    else
      match password with
      | .vstr ps =>
        match user_validate_password (.vstr ps) with
        | some m => .error (.valueError m)
        | none =>
          match normalizeName3 first_name with
          | .error e => .error e
          | .ok fn =>
            match normalizeName3 last_name with
            | .error e => .error e
            | .ok ln =>
              .ok { id := freshId, email := pyNormEmail es,
                    password_hash := bcryptHash ps, first_name := fn,
                    last_name := ln, is_admin := is_admin.truthy,
                    created_at := now, updated_at := now }
      | _ => .error (.valueError "Password is required and must be a string")
  | _ => .error (.valueError "Email is required and must be a string")

/-- `User.get_by_email`: `None` for falsy email, else
    `filter_by(email=email.lower().strip()).first()` over the table in
    row order. -/
def get_by_email3 (db : List User3) (s : String) : Option User3 :=
  if s = "" then none else db.find? (fun u => u.email == pyNormEmail s)

/-- `Optional[str]` rendered into a JSON value. -/
def optPV : Option String → PVal
  | some s => .vstr s
  | none => .vnone

/-- `User.to_dict()`: the base dict (id and timestamps) updated with
    email, names and the admin flag — the password hash is excluded. -/
def user_to_dict (u : User3) : List (String × PVal) :=
  [("id", .vstr u.id),
   ("created_at", optPV u.created_at),
   ("updated_at", optPV u.updated_at),
   ("email", .vstr u.email),
   ("first_name", optPV u.first_name),
   ("last_name", optPV u.last_name),
   ("is_admin", .vbool u.is_admin)]

/-- The JSON body of `POST /api/v1/users/`; the handler reads only
    these keys.  `none` = key absent, `some .vnone` = key present with
    `null`. -/
structure RegPayload where
  email : Option PVal
  password : Option PVal
  first_name : Option PVal
  last_name : Option PVal
  is_admin : Option PVal
deriving DecidableEq

/-- Whether the payload dict is empty (`not user_data`). -/
def RegPayload.isEmptyDict (p : RegPayload) : Bool :=
  decide (p.email = none) && decide (p.password = none)
    && decide (p.first_name = none) && decide (p.last_name = none)
    && decide (p.is_admin = none)

/-- `{'error': m}`. -/
def errBody (m : String) : List (String × PVal) := [("error", .vstr m)]

/-- `UserRegistration.post` (part3/api/v1/users.py): returns the HTTP
    status, the user table after the request, and the response body.
    `db.session.add`/`commit` raises `IntegrityError` exactly when the
    unique email constraint is violated by an existing row. -/
def usersPost (freshId : String) (now : Option String)
    (payload : Option RegPayload) (db : List User3) :
    Nat × List User3 × List (String × PVal) :=
  match payload with
  | none => (400, db, errBody "Request body is required")
  | some p =>
    if p.isEmptyDict then (400, db, errBody "Request body is required")
    else
      let email := getPVal p.email
      let password := getPVal p.password
      if !email.truthy || !password.truthy then
        (400, db, errBody "Email and password are required")
      else if !users_validate_email email then
        (400, db, errBody "Invalid email format")
      else
        let (pwOk, pwMsg) := users_validate_password password
        if !pwOk then (400, db, errBody (pwMsg.getD ""))
        else
          match email with
          | .vstr es =>
            match get_by_email3 db es with
            | some _ => (409, db, errBody "User with this email already exists")
            | none =>
              match userNew3 freshId now email password (getPVal p.first_name)
                  (getPVal p.last_name) (p.is_admin.getD (.vbool false)) with
              | .error (.valueError m) => (400, db, errBody m)
              | .error _ => (500, db, errBody "User registration failed")
              | .ok u =>
                if (db.find? (fun w => w.email == u.email)).isSome then
                  (409, db, errBody "User with this email already exists")
                else (201, db ++ [u], user_to_dict u)
          | _ => (400, db, errBody "Invalid email format")

/- ### Part 2 `Place` model (app/models/place.py) -/

/-- `isinstance(value, (int, float))` — `bool` is a subclass of `int`. -/
def pyIsNumber (v : PVal) : Bool := v.toNum?.isSome

/-- The numeric value of `v` when `pyIsNumber v` holds (0 otherwise;
    only read under that guard). -/
def pyNumValue (v : PVal) : Rat := v.toNum?.getD 0

/-- The `price` property setter: non-negative number, stored as float. -/
def priceSet (v : PVal) : Except String Rat :=
  if ¬pyIsNumber v = true ∨ pyNumValue v < 0 then
    .error "Price must be a non-negative number"
  else .ok (pyNumValue v)

/-- The `latitude` property setter: a number in `[-90, 90]`, stored as
    float (`float(value)` — exact on these magnitudes). -/
def latitudeSet (v : PVal) : Except String Rat :=
  if ¬pyIsNumber v = true ∨ ¬(-90 ≤ pyNumValue v ∧ pyNumValue v ≤ 90) then
    .error "Latitude must be between -90 and 90"
  else .ok (pyNumValue v)

/-- The `longitude` property setter: a number in `[-180, 180]`. -/
def longitudeSet (v : PVal) : Except String Rat :=
  if ¬pyIsNumber v = true ∨ ¬(-180 ≤ pyNumValue v ∧ pyNumValue v ≤ 180) then
    .error "Longitude must be between -180 and 180"
  else .ok (pyNumValue v)

/-- A constructed part-2 `Place` (timestamps elided; `freshId` is the
    generated UUID). -/
structure Place2 where
  id : String
  title : PVal
  description : PVal
  price : Rat
  latitude : Rat
  longitude : Rat
  owner_id : PVal
  amenities : List PVal
deriving DecidableEq

/-- `Place.__init__`: title and description are stored unvalidated;
    price, latitude and longitude go through their property setters (in
    that order); `amenities or []` replaces a falsy argument by `[]`. -/
def placeNew2 (freshId : String)
    (title description price latitude longitude owner_id : PVal)
    (amenities : Option (List PVal)) : Except String Place2 :=
  match priceSet price with
  | .error m => .error m
  | .ok pr =>
    match latitudeSet latitude with
    | .error m => .error m
    | .ok la =>
      match longitudeSet longitude with
      | .error m => .error m
      | .ok lo =>
        .ok { id := freshId, title := title, description := description,
              price := pr, latitude := la, longitude := lo,
              owner_id := owner_id,
              amenities := match amenities with | some l => l | none => [] }

/- ### Part 3 `ValidationUtils` field validators
   (api/v1/validation_utils.py) -/

/-- `ValidationUtils.validate_string_field`: must be a string, its
    stripped length at least `minLength`, and (when `max_length` is
    truthy, i.e. neither `None` nor 0) its raw length at most
    `maxLength`. -/
def vu_validate_string_field (v : PVal) (fieldName : String)
    (minLength : Nat) (maxLength : Option Nat) : Bool × Option String :=
  match v with
  | .vstr s =>
    if (pyStrip s).length < minLength then
      (false, some (fieldName ++ " must be at least " ++ toString minLength ++ " chars"))
    else
      match maxLength with
      | some ml =>
        if ml ≠ 0 ∧ ml < s.length then
          (false, some (fieldName ++ " must be no more than " ++ toString ml ++ " chars"))
        else (true, none)
      | none => (true, none)
  | _ => (false, some (fieldName ++ " must be a string"))

/-- `ValidationUtils.validate_integer_field`: `int(value)` must
    succeed and the result must respect the optional bounds. -/
def vu_validate_integer_field (v : PVal) (fieldName : String)
    (minValue maxValue : Option Int) : Bool × Option String :=
  match pyToInt v with
  | none => (false, some (fieldName ++ " must be an integer"))
  | some x =>
    if (match minValue with | some m => decide (x < m) | none => false) then
      (false, some (fieldName ++ " must be at least "
        ++ (match minValue with | some m => toString m | none => "")))
    else if (match maxValue with | some mx => decide (mx < x) | none => false) then
      (false, some (fieldName ++ " must be no more than "
        ++ (match maxValue with | some mx => toString mx | none => "")))
    else (true, none)

/-- `ValidationUtils.validate_float_field`: `float(value)` must
    succeed and the min/max guards `float_value < min_value` /
    `float_value > max_value` must not fire.  Both guards are `False`
    for NaN, so NaN passes any bounds. -/
def vu_validate_float_field (v : PVal) (fieldName : String)
    (minValue maxValue : Option Rat) : Bool × Option String :=
  match pyToFloat v with
  | none => (false, some (fieldName ++ " must be a number"))
  | some x =>
    if (match minValue with | some m => x.ltRat m | none => false) then
      (false, some (fieldName ++ " must be at least "
        ++ (match minValue with | some m => toString m | none => "")))
    else if (match maxValue with | some mx => x.gtRat mx | none => false) then
      (false, some (fieldName ++ " must be no more than "
        ++ (match maxValue with | some mx => toString mx | none => "")))
    else (true, none)

/-- Payload of `ValidationUtils.validate_place_data` (only these keys
    are inspected). -/
structure VUPlaceData where
  name : Option PVal
  description : Option PVal
  number_rooms : Option PVal
  number_bathrooms : Option PVal
  max_guest : Option PVal
  price_by_night : Option PVal
  latitude : Option PVal
  longitude : Option PVal
deriving DecidableEq

/-- One `if key in data:` step of `validate_place_data`: run the field
    validator when the key is present, short-circuiting on failure. -/
def vuCheck (o : Option PVal) (f : PVal → Bool × Option String)
    (rest : Unit → Bool × Option String) : Bool × Option String :=
  match o with
  | some v => let r := f v; if r.1 then rest () else (false, r.2)
  | none => rest ()

/-- `ValidationUtils.validate_place_data`: the chain of per-field
    checks in source order. -/
def vu_validate_place_data (d : VUPlaceData) : Bool × Option String :=
  vuCheck d.name (fun v => vu_validate_string_field v "name" 1 (some 255)) fun _ =>
  vuCheck d.description (fun v => vu_validate_string_field v "description" 1 (some 1000)) fun _ =>
  vuCheck d.number_rooms (fun v => vu_validate_integer_field v "number_rooms" (some 0) none) fun _ =>
  vuCheck d.number_bathrooms (fun v => vu_validate_integer_field v "number_bathrooms" (some 0) none) fun _ =>
  vuCheck d.max_guest (fun v => vu_validate_integer_field v "max_guest" (some 1) none) fun _ =>
  vuCheck d.price_by_night (fun v => vu_validate_float_field v "price_by_night" (some 0) none) fun _ =>
  vuCheck d.latitude (fun v => vu_validate_float_field v "latitude" (some (-90)) (some 90)) fun _ =>
  vuCheck d.longitude (fun v => vu_validate_float_field v "longitude" (some (-180)) (some 180)) fun _ =>
  (true, none)

/- ### Part 2 `Review` model (app/models/review.py) -/

/-- `isinstance(v, int)` — `bool` is a subclass of `int`. -/
def pyIsInt (v : PVal) : Bool :=
  match v with
  | .vint _ => true
  | .vbool _ => true
  | _ => false

/-- The integer value of `v` when `pyIsInt v` holds (0 otherwise; only
    read under that guard). -/
def pyIntValue (v : PVal) : Int :=
  match v with
  | .vint n => n
  | .vbool b => if b then 1 else 0
  | _ => 0

/-- `Review._validate_text`: falsy or whitespace-only strings raise
    `ValueError`; `.strip()` on a truthy non-string raises
    `AttributeError`. -/
def validateText2 (v : PVal) : Except PyErr String :=
  match v with
  | .vstr s =>
    if pyStrip s = "" then .error (.valueError "Review text cannot be empty")
    else .ok (pyStrip s)
  | _ =>
    if v.truthy then .error .attributeError
    else .error (.valueError "Review text cannot be empty")

/-- The condition of `Review._validate_rating`:
    `isinstance(rating, int) and 1 <= rating <= 5`. -/
def ratingValidate2 (v : PVal) : Bool :=
  pyIsInt v && decide (1 ≤ pyIntValue v) && decide (pyIntValue v ≤ 5)

/-- A constructed part-2 `Review` (timestamps elided). -/
structure Review2 where
  id : String
  text : String
  rating : PVal
  place_id : PVal
  user_id : PVal
deriving DecidableEq

/-- `Review.__init__`: validate the text, validate the rating (raising
    `ValueError` unless it is an int in `[1, 5]`), store the fields. -/
def reviewNew2 (freshId : String) (text rating place_id user_id : PVal) :
    Except PyErr Review2 :=
  match validateText2 text with
  | .error e => .error e
  | .ok t =>
    if ¬ ratingValidate2 rating = true then
      .error (.valueError "Rating must be an integer between 1 and 5")
    else
      .ok { id := freshId, text := t, rating := rating,
            place_id := place_id, user_id := user_id }

/- ### Part 3 reviews endpoints (api/v1/reviews.py) -/

/-- The JSON body of `POST /api/v1/reviews/`; the handler reads only
    these keys. -/
structure RevPayload where
  place_id : Option PVal
  rating : Option PVal
  comment : Option PVal
deriving DecidableEq

/-- Whether the payload dict is empty (`not review_data`). -/
def RevPayload.isEmptyDict (d : RevPayload) : Bool :=
  decide (d.place_id = none) && decide (d.rating = none)
    && decide (d.comment = none)

/-- `validate_review_data`: requires a non-empty payload, a truthy
    place_id, a non-`None` rating whose `int(...)` conversion succeeds
    and lands in `[1, 5]`. -/
def validate_review_data (d : RevPayload) : Bool × String :=
  if d.isEmptyDict then (false, "Review data is required")
  else if !(getPVal d.place_id).truthy then (false, "Place ID is required")
  else
    match d.rating with
    | none => (false, "Rating is required")
    | some rv =>
      if rv = .vnone then (false, "Rating is required")
      else
        match pyToInt rv with
        | none => (false, "Invalid rating value")
        | some r =>
          if 1 ≤ r ∧ r ≤ 5 then (true, "") else (false, "Rating must be between 1 and 5")

/-- The columns of a facade place read by the reviews endpoints (`id`
    via the lookup, `owner_id` for the ownership check; the other
    columns never influence control flow). -/
structure FPlace where
  id : String
  owner_id : String
deriving DecidableEq

/-- `facade.get_place(place_id)`: primary-key lookup in the place
    table. -/
def facadeGetPlace (ps : List FPlace) (pid : PVal) : Option FPlace :=
  ps.find? (fun p => pyEq (.vstr p.id) pid)

/-- The mock `Review` of part3/api/v1/reviews.py (timestamps, set to
    `None` and never read by these endpoints, elided). -/
structure MockReview where
  id : PVal
  place_id : PVal
  user_id : PVal
  rating : PVal
  comment : PVal
deriving DecidableEq

/-- `ReviewsList.post`: authenticate, validate the payload, check the
    place exists, forbid reviewing an owned place (403), forbid a
    second review of the same place by the same user (409), else store
    the new review (`create_review`) under a fresh UUID. -/
def reviewsPost (uid : Option String) (d : RevPayload) (ps : List FPlace)
    (freshId : String) (db : List (String × MockReview)) :
    Nat × List (String × MockReview) :=
  match uid with
  | none => (401, db)
  | some u =>
    if !(validate_review_data d).1 then (400, db)
    else
      let pid := getPVal d.place_id
      match facadeGetPlace ps pid with
      | none => (404, db)
      | some pl =>
        if pl.owner_id = u then (403, db)
        else if (db.find? (fun e =>
            pyEq e.2.user_id (.vstr u) && pyEq e.2.place_id pid)).isSome then
          (409, db)
        else
          (201, dictInsert freshId
            ⟨.vstr freshId, pid, .vstr u, getPVal d.rating, getPVal d.comment⟩ db)

/-- The JSON body of `PUT /api/v1/reviews/<id>`: `update_review` copies
    any key naming an attribute of the mock review whose value is not
    `None`; keys that are not attributes have no effect. -/
structure RevUpdatePayload where
  id : Option PVal
  place_id : Option PVal
  user_id : Option PVal
  rating : Option PVal
  comment : Option PVal
deriving DecidableEq

/-- Whether the update dict is empty (`if update_data:`). -/
def RevUpdatePayload.isEmptyDict (d : RevUpdatePayload) : Bool :=
  decide (d.id = none) && decide (d.place_id = none)
    && decide (d.user_id = none) && decide (d.rating = none)
    && decide (d.comment = none)

/-- One `setattr` step of `update_review`: overwrite when the key is
    present with a non-`None` value. -/
def updField (old : PVal) : Option PVal → PVal
  | some v => if v = .vnone then old else v
  | none => old

/-- `update_review`'s field loop applied to one review. -/
def applyRevUpdate (r : MockReview) (d : RevUpdatePayload) : MockReview :=
  { id := updField r.id d.id,
    place_id := updField r.place_id d.place_id,
    user_id := updField r.user_id d.user_id,
    rating := updField r.rating d.rating,
    comment := updField r.comment d.comment }

/-- `ReviewResource.put`: id and auth checks, 404 on a missing review,
    403 unless author or admin; a missing body reaches
    `update_review(review_id, None)` whose `.items()` raises and is
    mapped to 500; a present rating key must convert to an int in
    `[1, 5]`; then `update_review` applies the payload. -/
def reviewPut (uid : Option String) (isAdmin : Bool) (reviewId : String)
    (d : Option RevUpdatePayload) (db : List (String × MockReview)) :
    Nat × List (String × MockReview) :=
  if reviewId = "" then (400, db)
  else
    match uid with
    | none => (401, db)
    | some u =>
      match dictGet reviewId db with
      | none => (404, db)
      | some r =>
        if !pyEq r.user_id (.vstr u) && !isAdmin then (403, db)
        else
          match d with
          | none => (500, db)
          | some dd =>
            if dd.isEmptyDict = false ∧ dd.rating ≠ none then
              match pyToInt (getPVal dd.rating) with
              | none => (400, db)
              | some rv =>
                if ¬(1 ≤ rv ∧ rv ≤ 5) then (400, db)
                else (200, dictInsert reviewId (applyRevUpdate r dd) db)
            else (200, dictInsert reviewId (applyRevUpdate r dd) db)

/-- `ReviewResource.delete`: id and auth checks, 404 on a missing
    review, 403 unless author or admin, else remove the entry. -/
def reviewDelete (uid : Option String) (isAdmin : Bool) (reviewId : String)
    (db : List (String × MockReview)) : Nat × List (String × MockReview) :=
  if reviewId = "" then (400, db)
  else
    match uid with
    | none => (401, db)
    | some u =>
      match dictGet reviewId db with
      | none => (404, db)
      | some r =>
        if !pyEq r.user_id (.vstr u) && !isAdmin then (403, db)
        else (200, dictRemove reviewId db)

/-- Review stores reachable from empty by the create/update/delete
    endpoints (claim C6, as stated). -/
inductive ReviewsReach : List (String × MockReview) → Prop where
  | init : ReviewsReach []
  | post (db : List (String × MockReview)) (uid : Option String)
      (d : RevPayload) (ps : List FPlace) (freshId : String) :
      ReviewsReach db → ReviewsReach (reviewsPost uid d ps freshId db).2
  | put (db : List (String × MockReview)) (uid : Option String) (adm : Bool)
      (rid : String) (d : Option RevUpdatePayload) :
      ReviewsReach db → ReviewsReach (reviewPut uid adm rid d db).2
  | del (db : List (String × MockReview)) (uid : Option String) (adm : Bool)
      (rid : String) :
      ReviewsReach db → ReviewsReach (reviewDelete uid adm rid db).2

/-- An update payload that supplies no (non-null) `place_id` or
    `user_id` value — the restriction the amended claim C6 needs. -/
def RevUpdatePayload.noRekey (d : RevUpdatePayload) : Bool :=
  (match d.place_id with | none => true | some v => decide (v = .vnone))
    && (match d.user_id with | none => true | some v => decide (v = .vnone))

/-- Review stores reachable when every update payload supplies no
    place_id/user_id value (amended claim C6). -/
inductive ReviewsReachNoRekey : List (String × MockReview) → Prop where
  | init : ReviewsReachNoRekey []
  | post (db : List (String × MockReview)) (uid : Option String)
      (d : RevPayload) (ps : List FPlace) (freshId : String) :
      ReviewsReachNoRekey db → ReviewsReachNoRekey (reviewsPost uid d ps freshId db).2
  | put (db : List (String × MockReview)) (uid : Option String) (adm : Bool)
      (rid : String) (d : Option RevUpdatePayload)
      (hd : ∀ dd, d = some dd → dd.noRekey = true) :
      ReviewsReachNoRekey db → ReviewsReachNoRekey (reviewPut uid adm rid d db).2
  | del (db : List (String × MockReview)) (uid : Option String) (adm : Bool)
      (rid : String) :
      ReviewsReachNoRekey db → ReviewsReachNoRekey (reviewDelete uid adm rid db).2

/-- "At most one review per (user, place) pair": no two distinct stored
    reviews agree on both `user_id` and `place_id`. -/
def atMostOnePerUserPlace (db : List (String × MockReview)) : Prop :=
  db.Pairwise fun a b =>
    ¬(a.2.user_id = b.2.user_id ∧ a.2.place_id = b.2.place_id)

/-- A canonical form making `pyEq` an equality: numeric values collapse
    to their rational value, strings and `None` stay apart. -/
def pyCanon (v : PVal) : Rat ⊕ String ⊕ Unit :=
  match v.toNum? with
  | some q => .inl q
  | none =>
    match v with
    | .vstr s => .inr (.inl s)
    | _ => .inr (.inr ())

/-- The binary relation whose `Pairwise` closure is "at most one
    review per (user, place)": two reviews must not agree on both
    `user_id` and `place_id`. -/
def distinctUserPlace (x y : MockReview) : Prop :=
  ¬(x.user_id = y.user_id ∧ x.place_id = y.place_id)

instance (x y : MockReview) : Decidable (distinctUserPlace x y) := by
  unfold distinctUserPlace; infer_instance

instance (db : List (String × MockReview)) : Decidable (atMostOnePerUserPlace db) := by
  unfold atMostOnePerUserPlace; infer_instance

/-- The facade place table used by the C6 scenario: two places owned by
    user "o". -/
def c6Places : List FPlace := [⟨"p1", "o"⟩, ⟨"p2", "o"⟩]

/-- The review store produced by: user "u" posts a review of "p1", then
    of "p2", then PUTs their second review with payload
    `{"place_id": "p1"}` — all through the embedded endpoints. -/
def c6Db : List (String × MockReview) :=
  (reviewPut (some "u") false "r2" (some ⟨none, some (.vstr "p1"), none, none, none⟩)
    ((reviewsPost (some "u") ⟨some (.vstr "p2"), some (.vint 5), none⟩ c6Places "r2"
      ((reviewsPost (some "u") ⟨some (.vstr "p1"), some (.vint 5), none⟩ c6Places "r1"
        []).2)).2)).2

/- ### Part 3 places endpoints (api/v1/places.py) -/

/-- The mock `Place` of part3/api/v1/places.py (timestamps, set to
    `None` and never read by these endpoints, elided). -/
structure MockPlace where
  id : PVal
  name : PVal
  description : PVal
  address : PVal
  price_per_night : PVal
  max_guests : PVal
  latitude : PVal
  longitude : PVal
  owner_id : PVal
deriving DecidableEq

/-- The JSON body of `PUT /api/v1/places/<id>`: `update_place` copies
    any key naming an attribute of the mock place whose value is not
    `None`; keys that are not attributes have no effect. -/
structure PlaceUpdatePayload where
  id : Option PVal
  name : Option PVal
  description : Option PVal
  address : Option PVal
  price_per_night : Option PVal
  max_guests : Option PVal
  latitude : Option PVal
  longitude : Option PVal
  owner_id : Option PVal
deriving DecidableEq

/-- Whether the update dict is empty (`if update_data:`). -/
def PlaceUpdatePayload.isEmptyDict (d : PlaceUpdatePayload) : Bool :=
  decide (d.id = none) && decide (d.name = none) && decide (d.description = none)
    && decide (d.address = none) && decide (d.price_per_night = none)
    && decide (d.max_guests = none) && decide (d.latitude = none)
    && decide (d.longitude = none) && decide (d.owner_id = none)

/-- Longitude step of the places-module `validate_place_data`.  The
    check is Python's chained `-180 <= lon <= 180`, which is `False`
    for NaN and infinities — unlike `ValidationUtils`, this validator
    rejects them. -/
def placesCheckLongitude (d : PlaceUpdatePayload) : Bool × String :=
  match d.longitude with
  | none => (true, "")
  | some v =>
    match pyToFloat v with
    | none => (false, "Invalid longitude value")
    | some x =>
      if !(x.inRange (-180) 180) then (false, "Longitude must be between -180 and 180")
      else (true, "")

/-- Latitude step of the places-module `validate_place_data`. -/
def placesCheckLatitude (d : PlaceUpdatePayload) : Bool × String :=
  match d.latitude with
  | none => placesCheckLongitude d
  | some v =>
    match pyToFloat v with
    | none => (false, "Invalid latitude value")
    | some x =>
      if !(x.inRange (-90) 90) then (false, "Latitude must be between -90 and 90")
      else placesCheckLongitude d

/-- Max-guests step of the places-module `validate_place_data`. -/
def placesCheckGuests (d : PlaceUpdatePayload) : Bool × String :=
  match d.max_guests with
  | none => placesCheckLatitude d
  | some v =>
    match pyToInt v with
    | none => (false, "Invalid maximum guests value")
    | some g =>
      if g ≤ 0 then (false, "Maximum guests must be positive")
      else placesCheckLatitude d

/-- Price step of the places-module `validate_place_data`. -/
def placesCheckPrice (d : PlaceUpdatePayload) : Bool × String :=
  match d.price_per_night with
  | none => placesCheckGuests d
  | some v =>
    match pyToFloat v with
    | none => (false, "Invalid price per night value")
    | some x =>
      if x.ltRat 0 then (false, "Price per night cannot be negative")
      else placesCheckGuests d

/-- `validate_place_data` (the local helper of api/v1/places.py): the
    payload must be non-empty and carry a `name` key; present price,
    guest and coordinate fields must convert and be in range. -/
def places_validate_place_data (d : PlaceUpdatePayload) : Bool × String :=
  if d.isEmptyDict || decide (d.name = none) then (false, "Place name is required")
  else placesCheckPrice d

/-- `update_place`'s field loop applied to one place. -/
def applyPlaceUpdate (p : MockPlace) (d : PlaceUpdatePayload) : MockPlace :=
  { id := updField p.id d.id,
    name := updField p.name d.name,
    description := updField p.description d.description,
    address := updField p.address d.address,
    price_per_night := updField p.price_per_night d.price_per_night,
    max_guests := updField p.max_guests d.max_guests,
    latitude := updField p.latitude d.latitude,
    longitude := updField p.longitude d.longitude,
    owner_id := updField p.owner_id d.owner_id }

/-- `PlaceResource.put`: id and auth checks, 404 on a missing place,
    403 unless the requester owns the place; a missing body reaches
    `update_place(place_id, None)` whose `.items()` raises and is
    mapped to 500; a non-empty body must pass `validate_place_data`;
    then `update_place` applies the payload. -/
def placePut (uid : Option String) (placeId : String)
    (d : Option PlaceUpdatePayload) (db : List (String × MockPlace)) :
    Nat × List (String × MockPlace) :=
  if placeId = "" then (400, db)
  else
    match uid with
    | none => (401, db)
    | some u =>
      match dictGet placeId db with
      | none => (404, db)
      | some pl =>
        if ¬ pyEq pl.owner_id (.vstr u) = true then (403, db)
        else
          match d with
          | none => (500, db)
          | some dd =>
            if dd.isEmptyDict = false then
              if !(places_validate_place_data dd).1 then (400, db)
              else (200, dictInsert placeId (applyPlaceUpdate pl dd) db)
            else (200, dictInsert placeId (applyPlaceUpdate pl dd) db)

/- ### Part 2 `User` model and the user operations of `HBnBFacade`
   (app/models/user.py, app/services/facade.py) -/

/-- A part-2 `User` object (timestamps elided).  All attributes are
    `PVal` because `BaseModel.update` may overwrite any of them with an
    arbitrary payload value. -/
structure User2 where
  id : PVal
  first_name : PVal
  last_name : PVal
  email : PVal
  is_admin : PVal
deriving DecidableEq

/-- The `Dict[str, Any]` argument of the facade user operations; only
    these keys are ever read or applied (a key that is not a `User`
    attribute is ignored by `BaseModel.update`, and timestamps are
    elided). -/
structure UserData2 where
  id : Option PVal
  first_name : Option PVal
  last_name : Option PVal
  email : Option PVal
  password : Option PVal
  is_admin : Option PVal
deriving DecidableEq

/-- `User._validate_name`: falsy or whitespace-only strings raise
    `ValueError`; `.strip()` on a truthy non-string raises
    `AttributeError`; valid names are stripped. -/
def validateName2 (v : PVal) (fieldName : String) : Except PyErr String :=
  match v with
  | .vstr s =>
    if pyStrip s = "" then .error (.valueError (fieldName ++ " cannot be empty"))
    else .ok (pyStrip s)
  | _ =>
    if v.truthy then .error .attributeError
    else .error (.valueError (fieldName ++ " cannot be empty"))

/-- `User._validate_email` (part 2): falsy/blank strings raise, the
    shared regex must match the stripped string, and the result is
    stripped and lower-cased. -/
def validateEmail2 (v : PVal) : Except PyErr String :=
  match v with
  | .vstr s =>
    if pyStrip s = "" then .error (.valueError "Email cannot be empty")
    else if ¬ emailRegexMatch (pyStrip s) = true then
      .error (.valueError "Invalid email format")
    else .ok (pyLower (pyStrip s))
  | _ =>
    if v.truthy then .error .attributeError
    else .error (.valueError "Email cannot be empty")

/-- `User(**user_data)` in part 2.  The constructor signature is
    `(first_name, last_name, email, is_admin=False)`, so a dict
    carrying `password` or `id` raises `TypeError` (unexpected keyword
    argument), as does a dict missing `first_name`, `last_name` or
    `email` (missing required positional argument). -/
def userNew2 (freshId : String) (d : UserData2) : Except PyErr User2 :=
  if d.password ≠ none ∨ d.id ≠ none then .error .typeError
  else
    match d.first_name, d.last_name, d.email with
    | some fnv, some lnv, some emv =>
      match validateName2 fnv "First name" with
      | .error e => .error e
      | .ok fn =>
        match validateName2 lnv "Last name" with
        | .error e => .error e
        | .ok ln =>
          match validateEmail2 emv with
          | .error e => .error e
          | .ok em =>
            .ok { id := .vstr freshId, first_name := .vstr fn, last_name := .vstr ln,
                  email := .vstr em, is_admin := d.is_admin.getD (.vbool false) }
    | _, _, _ => .error .typeError

/-- `BaseModel.update(data)` on a part-2 user: every present key that
    names a `User` attribute is assigned (even when its value is
    `None`); the `password` key is ignored because `User` has no such
    attribute. -/
def applyUserUpdate2 (u : User2) (d : UserData2) : User2 :=
  { id := d.id.getD u.id,
    first_name := d.first_name.getD u.first_name,
    last_name := d.last_name.getD u.last_name,
    email := d.email.getD u.email,
    is_admin := d.is_admin.getD u.is_admin }

/-- `UserRepository.get_by_email` → `get_by_attribute('email', value)`:
    the first stored object whose `email` compares `==` to the value. -/
def userRepoFindByEmail (st : InMemoryRepository PVal User2) (v : PVal) :
    Option (PVal × User2) :=
  st._storage.find? fun e => pyEq e.2.email v

/-- `HBnBFacade.create_user`: require truthy `email` and `password`,
    refuse an email that already exists, then construct `User(**data)`
    (which raises `TypeError` since `password` is present — every
    exception is caught and turned into `None`) and add it. -/
def facadeCreateUser2 (freshId : String) (st : InMemoryRepository PVal User2)
    (d : UserData2) : Option User2 × InMemoryRepository PVal User2 :=
  if !((getPVal d.email).truthy && (getPVal d.password).truthy) then (none, st)
  else if (userRepoFindByEmail st (getPVal d.email)).isSome then (none, st)
  else
    match userNew2 freshId d with
    | .error _ => (none, st)
    | .ok u =>
      let (ok, st') := st.add User2.id u
      if ok then (some u, st') else (none, st')

/-- `HBnBFacade.update_user`: missing user → `False`; a changed email
    that already belongs to a stored user → `ValueError`, caught, →
    `False`; otherwise `repo.update` applies the data to the stored
    object. -/
def facadeUpdateUser2 (st : InMemoryRepository PVal User2) (userId : PVal)
    (d : UserData2) : Bool × InMemoryRepository PVal User2 :=
  match st.get userId with
  | none => (false, st)
  | some u =>
    if d.email ≠ none ∧ pyEq (getPVal d.email) u.email = false then
      if (userRepoFindByEmail st (getPVal d.email)).isSome then (false, st)
      else st.updateObj userId (applyUserUpdate2 u d)
    else st.updateObj userId (applyUserUpdate2 u d)

/-- `HBnBFacade.delete_user`: missing user → `False`; else the user's
    places and reviews are deleted (those repositories are disjoint
    from the user repository and are elided) and the user is removed. -/
def facadeDeleteUser2 (st : InMemoryRepository PVal User2) (userId : PVal) :
    Bool × InMemoryRepository PVal User2 :=
  match st.get userId with
  | none => (false, st)
  | some _ => st.delete userId

/-- User-repository states reachable from empty repositories through
    the facade user operations (claim C1). -/
inductive UserFacadeReach : InMemoryRepository PVal User2 → Prop where
  | init : UserFacadeReach .empty
  | create (st : InMemoryRepository PVal User2) (freshId : String) (d : UserData2) :
      UserFacadeReach st → UserFacadeReach (facadeCreateUser2 freshId st d).2
  | upd (st : InMemoryRepository PVal User2) (uid : PVal) (d : UserData2) :
      UserFacadeReach st → UserFacadeReach (facadeUpdateUser2 st uid d).2
  | del (st : InMemoryRepository PVal User2) (uid : PVal) :
      UserFacadeReach st → UserFacadeReach (facadeDeleteUser2 st uid).2

/-- "No two users held in the user repository have the same email
    address" (equality in the Python `==` sense). -/
def emailsDistinct (st : InMemoryRepository PVal User2) : Prop :=
  st._storage.Pairwise fun a b => pyEq a.2.email b.2.email = false

/- ### Concrete data for claim C2 -/

/-- Whether a payload name field can be normalized without raising:
    strings are fine and falsy values become `None`; a truthy
    non-string would raise `AttributeError` in `_normalize_name`. -/
def nameOk (v : PVal) : Bool :=
  match v with
  | .vstr _ => true
  | _ => !v.truthy

/-- A user table holding one account whose stored email is *not* in
    normalized form ("X@Y.com"; the admin update endpoint stores emails
    without normalizing, so such rows are reachable). -/
def c2Db : List User3 :=
  [{ id := "a1", email := "X@Y.com", password_hash := "h", first_name := none,
     last_name := none, is_admin := false, created_at := none, updated_at := none }]

/-- A registration request whose email equals the stored user's email
    verbatim, with a valid password. -/
def c2Payload : RegPayload :=
  { email := some (.vstr "X@Y.com"), password := some (.vstr "secret123"),
    first_name := none, last_name := none, is_admin := none }

/- ### Lemmas about the dict model -/

theorem mem_dictInsert {κ α : Type} [DecidableEq κ] {k : κ} {v : α}
    {l : List (κ × α)} {x : κ × α} (h : x ∈ dictInsert k v l) :
    x = (k, v) ∨ x ∈ l := by
  induction l with
  | nil => simpa [dictInsert] using h
  | cons e rest ih =>
    obtain ⟨k', v'⟩ := e
    simp only [dictInsert] at h
    by_cases he : k' = k
    · subst he
      rw [if_pos rfl] at h
      rcases List.mem_cons.mp h with h | h
      · exact Or.inl h
      · exact Or.inr (List.mem_cons_of_mem _ h)
    · rw [if_neg he] at h
      rcases List.mem_cons.mp h with h | h
      · exact Or.inr (h ▸ List.mem_cons_self _ _)
      · rcases ih h with h | h
        · exact Or.inl h
        · exact Or.inr (List.mem_cons_of_mem _ h)

theorem length_dictInsert_of_get {κ α : Type} [DecidableEq κ] {k : κ} {v w : α}
    {l : List (κ × α)} (h : dictGet k l = some v) :
    (dictInsert k w l).length = l.length := by
  induction l with
  | nil => simp [dictGet] at h
  | cons e rest ih =>
    by_cases he : e.1 = k
    · simp [dictInsert, he]
    · simp only [dictGet, List.find?] at h
      rw [show (decide (e.1 = k)) = false by simpa using he] at h
      simp only [dictInsert]
      rw [if_neg he]
      simpa using ih h

theorem length_dictRemove_of_get {κ α : Type} [DecidableEq κ] {k : κ} {v : α}
    {l : List (κ × α)} (h : dictGet k l = some v) :
    (dictRemove k l).length + 1 = l.length := by
  induction l with
  | nil => simp [dictGet] at h
  | cons e rest ih =>
    by_cases he : e.1 = k
    · simp [dictRemove, he]
    · simp only [dictGet, List.find?] at h
      rw [show (decide (e.1 = k)) = false by simpa using he] at h
      simp only [dictRemove]
      rw [if_neg he]
      simpa using ih h

theorem dictRemove_sublist {κ α : Type} [DecidableEq κ] (k : κ)
    (l : List (κ × α)) : (dictRemove k l).Sublist l := by
  induction l with
  | nil => simp [dictRemove]
  | cons e rest ih =>
    by_cases he : e.1 = k
    · simp only [dictRemove, he, if_pos rfl]
      exact (List.sublist_cons_self e rest)
    · simp only [dictRemove]
      rw [if_neg he]
      exact ih.cons₂ e

theorem dictContains_iff_get {κ α : Type} [DecidableEq κ] {k : κ}
    {l : List (κ × α)} : dictContains k l = true ↔ ∃ v, dictGet k l = some v := by
  simp [dictContains, Option.isSome_iff_exists]

theorem dictGet_exists_mem {κ α : Type} [DecidableEq κ] {k : κ} {u : α}
    {l : List (κ × α)} (h : dictGet k l = some u) : ∃ e ∈ l, e.2 = u := by
  simp only [dictGet, Option.map_eq_some'] at h
  obtain ⟨e, he, heq⟩ := h
  exact ⟨e, List.mem_of_find?_eq_some he, heq⟩

theorem pairwise_dictInsert_of_all {κ α : Type} [DecidableEq κ]
    {R : α → α → Prop} {l : List (κ × α)} {k : κ} {v : α}
    (h : l.Pairwise fun a b => R a.2 b.2)
    (hall : ∀ e ∈ l, R e.2 v ∧ R v e.2) :
    (dictInsert k v l).Pairwise fun a b => R a.2 b.2 := by
  induction l with
  | nil => simp [dictInsert]
  | cons e rest ih =>
    obtain ⟨k', w⟩ := e
    rcases List.pairwise_cons.mp h with ⟨hhead, htail⟩
    simp only [dictInsert]
    by_cases he : k' = k
    · rw [if_pos he]
      refine List.pairwise_cons.mpr ⟨?_, htail⟩
      intro x hx
      exact (hall x (List.mem_cons_of_mem _ hx)).2
    · rw [if_neg he]
      refine List.pairwise_cons.mpr ⟨?_, ?_⟩
      · intro x hx
        rcases mem_dictInsert hx with rfl | hx'
        · exact (hall (k', w) (List.mem_cons_self _ _)).1
        · exact hhead x hx'
      · exact ih htail fun e he' => hall e (List.mem_cons_of_mem _ he')

theorem pairwise_dictInsert_of_congr {κ α : Type} [DecidableEq κ]
    {R : α → α → Prop} {l : List (κ × α)} {k : κ} {u v : α}
    (hget : dictGet k l = some u)
    (h : l.Pairwise fun a b => R a.2 b.2)
    (hcg : ∀ x, (R x u → R x v) ∧ (R u x → R v x)) :
    (dictInsert k v l).Pairwise fun a b => R a.2 b.2 := by
  induction l with
  | nil => simp [dictGet] at hget
  | cons e rest ih =>
    obtain ⟨k', w⟩ := e
    rcases List.pairwise_cons.mp h with ⟨hhead, htail⟩
    simp only [dictInsert]
    by_cases he : k' = k
    · rw [if_pos he]
      have hw : w = u := by
        simp only [dictGet, List.find?] at hget
        rw [show (decide ((k', w).1 = k)) = true by simpa using he] at hget
        simpa using hget
      subst hw
      exact List.pairwise_cons.mpr ⟨fun x hx => (hcg x.2).2 (hhead x hx), htail⟩
    · rw [if_neg he]
      have hget' : dictGet k rest = some u := by
        simp only [dictGet, List.find?] at hget ⊢
        rw [show (decide ((k', w).1 = k)) = false by simpa using he] at hget
        exact hget
      refine List.pairwise_cons.mpr ⟨?_, ih hget' htail⟩
      intro x hx
      rcases mem_dictInsert hx with rfl | hx'
      · obtain ⟨e, hme, hev⟩ := dictGet_exists_mem hget'
        exact (hcg w).1 (hev ▸ hhead e hme)
      · exact hhead x hx'

/- ### Semantic characterization of `pyEq` -/

theorem pyEq_iff_canon (a b : PVal) : pyEq a b = true ↔ pyCanon a = pyCanon b := by
  cases a <;> cases b <;>
    simp [pyEq, pyCanon, PVal.toNum?]

theorem pyEq_refl (a : PVal) : pyEq a a = true :=
  (pyEq_iff_canon a a).mpr rfl

/- ### Theorems -/

/-- C9: `validate_pagination_params` clamps rather than rejects: it
    returns `(max 1 page, max 1 (min 100 per_page))`, the resulting
    page is at least 1, the resulting per_page lies in `[1, 100]`, and
    in-range inputs are returned unchanged. -/
theorem validate_pagination_params_clamps (page per_page : Int) :
    validate_pagination_params page per_page
      = (max 1 page, max 1 (min 100 per_page)) ∧
    1 ≤ (validate_pagination_params page per_page).1 ∧
    1 ≤ (validate_pagination_params page per_page).2 ∧
    (validate_pagination_params page per_page).2 ≤ 100 ∧
    (1 ≤ page → 1 ≤ per_page → per_page ≤ 100 →
      validate_pagination_params page per_page = (page, per_page)) := by
  refine ⟨rfl, ?_, ?_, ?_, fun h1 h2 h3 => ?_⟩
  · simp only [validate_pagination_params]; omega
  · simp only [validate_pagination_params]; omega
  · simp only [validate_pagination_params]; omega
  · simp only [validate_pagination_params, Prod.mk.injEq]; omega

/-- Witness for C9: the in-range pair (2, 50) is returned unchanged. -/
theorem validate_pagination_params_clamps_witness :
    validate_pagination_params 2 50 = (2, 50) :=
  (validate_pagination_params_clamps 2 50).2.2.2.2 (by decide) (by decide) (by decide)

/-- C8: in every state of an `InMemoryRepository` reachable from a
    fresh instance by `add`/`update`/`delete`/`clear`, the internal
    `_counter` equals the number of stored objects and `count()`
    returns that number; moreover, in any state, `add` on an object
    whose id is already stored returns `False` and leaves the
    repository unchanged. -/
theorem inMemoryRepository_counter_consistent {κ α : Type} [DecidableEq κ]
    (idOf : α → κ) :
    (∀ r : InMemoryRepository κ α, RepoReach idOf r →
      r._counter = r._storage.length ∧ r.count = r._storage.length) ∧
    (∀ (r : InMemoryRepository κ α) (obj : α),
      dictContains (idOf obj) r._storage = true → r.add idOf obj = (false, r)) := by
  constructor
  · intro r h
    refine ⟨?_, rfl⟩
    induction h with
    | init => rfl
    | add r obj _ ih =>
      by_cases hc : dictContains (idOf obj) r._storage
      · simp [InMemoryRepository.add, hc, ih]
      · simp only [InMemoryRepository.add, if_neg hc]
        simp only [List.length_append, List.length_cons, List.length_nil]
        omega
    | upd r k v _ ih =>
      rcases hg : dictGet k r._storage with _ | w
      · simp [InMemoryRepository.updateObj, hg, ih]
      · simp only [InMemoryRepository.updateObj, hg]
        rw [length_dictInsert_of_get hg]
        exact ih
    | del r k _ ih =>
      by_cases hc : dictContains k r._storage
      · obtain ⟨v, hg⟩ := dictContains_iff_get.mp hc
        have hlen := length_dictRemove_of_get hg
        simp only [InMemoryRepository.delete, if_pos hc]
        omega
      · simp [InMemoryRepository.delete, hc, ih]
    | clr r _ _ => rfl
  · intro r obj hc
    simp [InMemoryRepository.add, hc]

/-- Witness for C8: a repository holding one object, reached by a
    single `add`; its counter matches its size and re-adding the same
    id fails without change. -/
theorem inMemoryRepository_counter_consistent_witness :
    (((InMemoryRepository.empty : InMemoryRepository String Nat).add
        (fun n => toString n) 7).2)._counter
      = (((InMemoryRepository.empty : InMemoryRepository String Nat).add
        (fun n => toString n) 7).2)._storage.length ∧
    ((((InMemoryRepository.empty : InMemoryRepository String Nat).add
        (fun n => toString n) 7).2).add (fun n => toString n) 7)
      = (false, ((InMemoryRepository.empty : InMemoryRepository String Nat).add
        (fun n => toString n) 7).2) :=
  ⟨((inMemoryRepository_counter_consistent (fun n : Nat => toString n)).1 _
      (RepoReach.add _ 7 RepoReach.init)).1,
   (inMemoryRepository_counter_consistent (fun n : Nat => toString n)).2 _ 7 rfl⟩

theorem user_validate_password_none_iff (v : PVal) :
    user_validate_password v = none ↔ passwordAcceptable v = true := by
  cases v with
  | vstr s =>
    by_cases hs : s = ""
    · subst hs; simp [user_validate_password, passwordAcceptable, PVal.truthy]
    · simp only [user_validate_password, passwordAcceptable, PVal.truthy]
      rw [show (s != "") = true by simpa using hs]
      by_cases hlen : s.length < 6 <;> simp [hlen] <;> omega
  | vnone => simp [user_validate_password, passwordAcceptable, PVal.truthy]
  | vbool b => cases b <;> simp [user_validate_password, passwordAcceptable, PVal.truthy]
  | vint n =>
    by_cases hn : n = 0 <;>
      simp [user_validate_password, passwordAcceptable, PVal.truthy, hn]
  | vfloat q =>
    by_cases hq : q = 0 <;>
      simp [user_validate_password, passwordAcceptable, PVal.truthy, hq]

theorem users_validate_password_fst_iff (v : PVal) :
    (users_validate_password v).1 = true ↔ passwordAcceptable v = true := by
  cases v with
  | vstr s =>
    by_cases hs : s = ""
    · subst hs; simp [users_validate_password, passwordAcceptable, PVal.truthy]
    · simp only [users_validate_password, passwordAcceptable, PVal.truthy]
      rw [show (s != "") = true by simpa using hs]
      by_cases hlen : s.length < 6 <;> simp [hlen] <;> omega
  | vnone => simp [users_validate_password, passwordAcceptable, PVal.truthy]
  | vbool b => cases b <;> simp [users_validate_password, passwordAcceptable, PVal.truthy]
  | vint n =>
    by_cases hn : n = 0 <;>
      simp [users_validate_password, passwordAcceptable, PVal.truthy, hn]
  | vfloat q =>
    by_cases hq : q = 0 <;>
      simp [users_validate_password, passwordAcceptable, PVal.truthy, hq]

theorem vu_validate_password_fst_iff (v : PVal) :
    (vu_validate_password v).1 = true ↔ passwordAcceptable v = true := by
  cases v with
  | vstr s =>
    by_cases hs : s = ""
    · subst hs; simp [vu_validate_password, passwordAcceptable, PVal.truthy]
    · simp only [vu_validate_password, passwordAcceptable, PVal.truthy]
      rw [show (s != "") = true by simpa using hs]
      by_cases hlen : s.length < 6 <;> simp [hlen] <;> omega
  | vnone => simp [vu_validate_password, passwordAcceptable, PVal.truthy]
  | vbool b => cases b <;> simp [vu_validate_password, passwordAcceptable, PVal.truthy]
  | vint n =>
    by_cases hn : n = 0 <;>
      simp [vu_validate_password, passwordAcceptable, PVal.truthy, hn]
  | vfloat q =>
    by_cases hq : q = 0 <;>
      simp [vu_validate_password, passwordAcceptable, PVal.truthy, hq]

theorem userNew3_ok_password {freshId : String} {now : Option String}
    {email password fn ln adm : PVal} {u : User3}
    (h : userNew3 freshId now email password fn ln adm = .ok u) :
    user_validate_password password = none := by
  cases email with
  | vstr es =>
    simp only [userNew3] at h
    by_cases hes : es = ""
    · simp [hes] at h
    · rw [if_neg hes] at h
      by_cases hat : (!(es.data.contains '@') || !(es.data.contains '.')) = true
      · rw [if_pos hat] at h; simp at h
      · rw [if_neg hat] at h
        split at h
        · split at h
          · simp at h
          · assumption
        · simp at h
  | vnone => simp [userNew3] at h
  | vbool b => simp [userNew3] at h
  | vint n => simp [userNew3] at h
  | vfloat q => simp [userNew3] at h

/-- C10: passwords that are not non-empty strings of length at least 6
    are rejected at every interface: `User.__init__` raises, all three
    password validators fail, and `POST /api/v1/users/` answers 400
    without touching the user table; every string of length at least 6
    passes the length check of all three validators. -/
theorem password_minimum_length_enforced :
    (∀ v : PVal, passwordAcceptable v = false →
      (∀ (freshId : String) (now : Option String) (email fn ln adm : PVal),
        ∃ e, userNew3 freshId now email v fn ln adm = Except.error e) ∧
      user_validate_password v ≠ none ∧
      (users_validate_password v).1 = false ∧
      (vu_validate_password v).1 = false ∧
      (∀ (freshId : String) (now : Option String) (p : RegPayload)
          (db : List User3), p.password = some v →
        (usersPost freshId now (some p) db).1 = 400 ∧
        (usersPost freshId now (some p) db).2.1 = db)) ∧
    (∀ s : String, 6 ≤ s.length →
      user_validate_password (.vstr s) = none ∧
      users_validate_password (.vstr s) = (true, none) ∧
      vu_validate_password (.vstr s) = (true, none)) := by
  constructor
  · intro v hv
    have huv : user_validate_password v ≠ none := by
      intro h
      rw [user_validate_password_none_iff] at h
      simp [h] at hv
    have husers : (users_validate_password v).1 = false := by
      rcases h : (users_validate_password v).1 with _ | _
      · rfl
      · rw [users_validate_password_fst_iff] at h; simp [h] at hv
    have hvu : (vu_validate_password v).1 = false := by
      rcases h : (vu_validate_password v).1 with _ | _
      · rfl
      · rw [vu_validate_password_fst_iff] at h; simp [h] at hv
    refine ⟨?_, huv, husers, hvu, ?_⟩
    · intro freshId now email fn ln adm
      rcases h : userNew3 freshId now email v fn ln adm with e | u
      · exact ⟨e, rfl⟩
      · exact absurd (userNew3_ok_password h) huv
    · intro freshId now p db hp
      have hpw : getPVal p.password = v := by simp [getPVal, hp]
      have hup : users_validate_password v
          = (false, (users_validate_password v).2) := Prod.ext husers rfl
      simp only [usersPost, hpw]
      by_cases h1 : p.isEmptyDict = true
      · simp [h1]
      · rw [if_neg h1]
        by_cases h2 : (!(getPVal p.email).truthy || !v.truthy) = true
        · simp [h2]
        · rw [if_neg h2]
          by_cases h3 : (!users_validate_email (getPVal p.email)) = true
          · simp [h3]
          · rw [if_neg h3]
            rw [hup]
            simp
  · intro s hlen
    have hs : s ≠ "" := by
      intro h; subst h; exact absurd hlen (by decide)
    have hnl : ¬ s.length < 6 := by omega
    refine ⟨?_, ?_, ?_⟩ <;>
      · simp only [user_validate_password, users_validate_password,
          vu_validate_password, PVal.truthy]
        rw [show (s != "") = true by simpa using hs]
        simp [hnl]

/-- Witness for C10: the short password "abc" fails the endpoint
    validator and the accepted password "secret123" passes the model
    validator. -/
theorem password_minimum_length_enforced_witness :
    (users_validate_password (.vstr "abc")).1 = false ∧
    user_validate_password (.vstr "secret123") = none :=
  ⟨(password_minimum_length_enforced.1 (.vstr "abc") (by decide)).2.2.1,
   (password_minimum_length_enforced.2 "secret123" (by decide)).1⟩

theorem vu_validate_float_field_fst_iff (v : PVal) (fieldName : String)
    (a b : Rat) :
    (vu_validate_float_field v fieldName (some a) (some b)).1 = true ↔
      ∃ x, pyToFloat v = some x ∧ x.ltRat a = false ∧ x.gtRat b = false := by
  rcases h : pyToFloat v with _ | x
  · simp [vu_validate_float_field, h]
  · simp only [vu_validate_float_field, h]
    constructor
    · intro hok
      rcases h1 : x.ltRat a with _ | _
      · rcases h2 : x.gtRat b with _ | _
        · exact ⟨x, rfl, h1, h2⟩
        · simp [h1, h2] at hok
      · simp [h1] at hok
    · rintro ⟨y, hy, hya, hyb⟩
      obtain rfl : x = y := by injection hy
      simp [hya, hyb]

/-- C4 counterexample: `float("nan")` succeeds in Python and NaN
    compares `False` under both `<` and `>`, so
    `ValidationUtils.validate_place_data` accepts a payload whose
    latitude is the string "nan" even though NaN is not between -90
    and 90 — refuting the claim that latitude acceptance means the
    value lies in `[-90, 90]`. -/
theorem place_coordinates_nan_counterexample :
    (vu_validate_place_data
      ⟨none, none, none, none, none, none, some (.vstr "nan"), none⟩).1 = true ∧
    pyToFloat (.vstr "nan") = some PyFloat.nan ∧
    PyFloat.nan.inRange (-90) 90 = false :=
  ⟨rfl, rfl, rfl⟩

/-- C4 (amended): the part-2 `Place` latitude/longitude setters succeed
    exactly on numbers in `[-90, 90]` / `[-180, 180]` (storing the
    numeric value) and raise `ValueError` otherwise; hence every
    successfully constructed `Place` has in-range coordinates;
    `ValidationUtils.validate_place_data` accepts a payload carrying
    latitude/longitude exactly when their float conversions succeed and
    neither the `value < min` nor the `value > max` guard fires — which
    for finite float values is exactly the in-range condition, but NaN
    also passes both guards. -/
theorem place_coordinates_bounded_amended :
    (∀ v : PVal,
      ((latitudeSet v).isOk = true ↔
        pyIsNumber v = true ∧ -90 ≤ pyNumValue v ∧ pyNumValue v ≤ 90) ∧
      (∀ q, latitudeSet v = .ok q → q = pyNumValue v) ∧
      ((longitudeSet v).isOk = true ↔
        pyIsNumber v = true ∧ -180 ≤ pyNumValue v ∧ pyNumValue v ≤ 180) ∧
      (∀ q, longitudeSet v = .ok q → q = pyNumValue v)) ∧
    (∀ (freshId : String) (title description price latitude longitude owner_id : PVal)
        (amenities : Option (List PVal)) (p : Place2),
      placeNew2 freshId title description price latitude longitude owner_id amenities
          = .ok p →
      -90 ≤ p.latitude ∧ p.latitude ≤ 90 ∧ -180 ≤ p.longitude ∧ p.longitude ≤ 180) ∧
    (∀ vlat vlon : PVal,
      (vu_validate_place_data
        ⟨none, none, none, none, none, none, some vlat, some vlon⟩).1 = true ↔
        ((∃ x, pyToFloat vlat = some x ∧ x.ltRat (-90) = false ∧ x.gtRat 90 = false) ∧
         (∃ y, pyToFloat vlon = some y ∧ y.ltRat (-180) = false ∧ y.gtRat 180 = false))) ∧
    (∀ (q lo hi : Rat),
      ((PyFloat.finite q).ltRat lo = false ∧ (PyFloat.finite q).gtRat hi = false) ↔
        (lo ≤ q ∧ q ≤ hi)) := by
  have hlat : ∀ v : PVal,
      ((latitudeSet v).isOk = true ↔
        pyIsNumber v = true ∧ -90 ≤ pyNumValue v ∧ pyNumValue v ≤ 90) ∧
      (∀ q, latitudeSet v = .ok q → q = pyNumValue v) := by
    intro v
    constructor
    · by_cases h : ¬pyIsNumber v = true ∨ ¬(-90 ≤ pyNumValue v ∧ pyNumValue v ≤ 90)
      · rw [latitudeSet, if_pos h]
        constructor
        · intro hc; simp [Except.isOk, Except.toBool] at hc
        · intro hc
          rcases h with h | h
          · exact absurd hc.1 h
          · exact absurd ⟨hc.2.1, hc.2.2⟩ h
      · rw [latitudeSet, if_neg h]
        push_neg at h
        exact ⟨fun _ => ⟨h.1, h.2.1, h.2.2⟩, fun _ => rfl⟩
    · intro q hq
      rw [latitudeSet] at hq
      split_ifs at hq
      all_goals first
        | exact Except.noConfusion hq
        | (injection hq with h'; exact h'.symm)
  have hlon : ∀ v : PVal,
      ((longitudeSet v).isOk = true ↔
        pyIsNumber v = true ∧ -180 ≤ pyNumValue v ∧ pyNumValue v ≤ 180) ∧
      (∀ q, longitudeSet v = .ok q → q = pyNumValue v) := by
    intro v
    constructor
    · by_cases h : ¬pyIsNumber v = true ∨ ¬(-180 ≤ pyNumValue v ∧ pyNumValue v ≤ 180)
      · rw [longitudeSet, if_pos h]
        constructor
        · intro hc; simp [Except.isOk, Except.toBool] at hc
        · intro hc
          rcases h with h | h
          · exact absurd hc.1 h
          · exact absurd ⟨hc.2.1, hc.2.2⟩ h
      · rw [longitudeSet, if_neg h]
        push_neg at h
        exact ⟨fun _ => ⟨h.1, h.2.1, h.2.2⟩, fun _ => rfl⟩
    · intro q hq
      rw [longitudeSet] at hq
      split_ifs at hq
      all_goals first
        | exact Except.noConfusion hq
        | (injection hq with h'; exact h'.symm)
  refine ⟨fun v => ⟨(hlat v).1, (hlat v).2, (hlon v).1, (hlon v).2⟩, ?_, ?_, ?_⟩
  · intro freshId title description price latitude longitude owner_id amenities p h
    rcases hpr : priceSet price with m1 | pr
    · simp only [placeNew2, hpr] at h; exact Except.noConfusion h
    · rcases hla : latitudeSet latitude with m2 | la
      · simp only [placeNew2, hpr, hla] at h; exact Except.noConfusion h
      · rcases hlo : longitudeSet longitude with m3 | lo
        · simp only [placeNew2, hpr, hla, hlo] at h; exact Except.noConfusion h
        · simp only [placeNew2, hpr, hla, hlo] at h
          injection h with h'
          subst h'
          have h1 := ((hlat latitude).1).mp (by rw [hla]; rfl)
          have h2 := (hlat latitude).2 la hla
          have h3 := ((hlon longitude).1).mp (by rw [hlo]; rfl)
          have h4 := (hlon longitude).2 lo hlo
          subst h2
          subst h4
          exact ⟨h1.2.1, h1.2.2, h3.2.1, h3.2.2⟩
  · intro vlat vlon
    have h1 := vu_validate_float_field_fst_iff vlat "latitude" (-90) 90
    have h2 := vu_validate_float_field_fst_iff vlon "longitude" (-180) 180
    rcases ha : vu_validate_float_field vlat "latitude" (some (-90)) (some 90) with ⟨ok1, m1⟩
    rcases hb : vu_validate_float_field vlon "longitude" (some (-180)) (some 180) with ⟨ok2, m2⟩
    rw [ha] at h1
    rw [hb] at h2
    cases ok1 <;> cases ok2 <;>
      simp_all [vu_validate_place_data, vuCheck, ha, hb]
  · intro q lo hi
    simp only [PyFloat.ltRat, PyFloat.gtRat, decide_eq_false_iff_not, not_lt]

/-- Witness for C4: a concrete place at latitude 45.0, longitude -7 is
    constructed successfully and its coordinates are in range. -/
theorem place_coordinates_bounded_amended_witness :
    -90 ≤ (45 : Rat) ∧ (45 : Rat) ≤ 90 ∧ -180 ≤ ((-7 : Int) : Rat) ∧ ((-7 : Int) : Rat) ≤ 180 :=
  place_coordinates_bounded_amended.2.1 "p1" (.vstr "t") .vnone (.vint 10)
    (.vfloat 45) (.vint (-7)) (.vstr "o") none
    ⟨"p1", .vstr "t", .vnone, ((10 : Int) : Rat), 45, ((-7 : Int) : Rat), .vstr "o", []⟩ (by rfl)

/-- C5: an authenticated user cannot review their own place — when the
    payload is valid and names a stored place whose `owner_id` equals
    the requester's id, `POST /reviews` answers 403 and the review
    store is unchanged. -/
theorem cannot_review_own_place
    (uid pid : String) (d : RevPayload) (ps : List FPlace)
    (db : List (String × MockReview)) (freshId : String) (pl : FPlace)
    (hpid : d.place_id = some (.vstr pid))
    (hval : (validate_review_data d).1 = true)
    (hpl : facadeGetPlace ps (.vstr pid) = some pl)
    (hown : pl.owner_id = uid) :
    reviewsPost (some uid) d ps freshId db = (403, db) := by
  simp only [reviewsPost, hval, hpid, getPVal, Option.getD_some, Bool.not_true,
    Bool.false_eq_true, if_false, hpl]
  simp [hown]

/-- Witness for C5: user "u" owns place "p"; their valid review request
    is rejected with 403 and the store stays empty. -/
theorem cannot_review_own_place_witness :
    reviewsPost (some "u") ⟨some (.vstr "p"), some (.vint 5), none⟩
      [⟨"p", "u"⟩] "r1" [] = (403, []) :=
  cannot_review_own_place "u" "p" _ _ _ _ ⟨"p", "u"⟩ rfl (by decide) (by decide) rfl

/-- C3 counterexample: the string "3" is not an integer, yet
    `validate_review_data` reports a payload with rating "3" valid
    (because it applies `int(...)` first), contradicting the claim that
    payload validation rejects every non-integer rating. -/
theorem review_rating_validation_counterexample :
    validate_review_data ⟨some (.vstr "p"), some (.vstr "3"), none⟩ = (true, "") ∧
    (∀ n : Int, (PVal.vstr "3") ≠ PVal.vint n) := by
  refine ⟨by decide, ?_⟩
  intro n h
  exact PVal.noConfusion h

/-- C3 (amended): constructing a part-2 `Review` succeeds exactly for
    ratings that are Python ints (including bools) between 1 and 5 and
    then stores the rating unchanged; `validate_review_data` accepts a
    rating exactly when `int(rating)` succeeds and lands in `[1, 5]`
    (so floats and numeric strings that convert into range pass); and
    every integer rating in `[1, 5]` passes both. -/
theorem review_rating_bounds_amended :
    (∀ v : PVal,
      ((reviewNew2 "r" (.vstr "ok") v (.vstr "p") (.vstr "u")).isOk = true ↔
        (pyIsInt v = true ∧ 1 ≤ pyIntValue v ∧ pyIntValue v ≤ 5)) ∧
      (∀ rv, reviewNew2 "r" (.vstr "ok") v (.vstr "p") (.vstr "u") = .ok rv →
        rv.rating = v)) ∧
    (∀ v : PVal,
      ((validate_review_data ⟨some (.vstr "p"), some v, none⟩).1 = true ↔
        ∃ n, pyToInt v = some n ∧ 1 ≤ n ∧ n ≤ 5)) ∧
    (∀ r : Int, 1 ≤ r → r ≤ 5 →
      validate_review_data ⟨some (.vstr "p"), some (.vint r), none⟩ = (true, "") ∧
      reviewNew2 "r" (.vstr "ok") (.vint r) (.vstr "p") (.vstr "u")
        = .ok ⟨"r", "ok", .vint r, .vstr "p", .vstr "u"⟩) := by
  have ht : validateText2 (.vstr "ok") = .ok "ok" := rfl
  refine ⟨?_, ?_, ?_⟩
  · intro v
    constructor
    · by_cases hr : ratingValidate2 v = true
      · simp only [reviewNew2, ht]
        rw [if_neg (by simpa using hr)]
        simp only [ratingValidate2, Bool.and_eq_true, decide_eq_true_eq] at hr
        exact ⟨fun _ => ⟨hr.1.1, hr.1.2, hr.2⟩, fun _ => rfl⟩
      · simp only [reviewNew2, ht]
        rw [if_pos (by simpa using hr)]
        constructor
        · intro hc; simp [Except.isOk, Except.toBool] at hc
        · intro hc
          exact absurd (by simp only [ratingValidate2, Bool.and_eq_true,
            decide_eq_true_eq]; exact ⟨⟨hc.1, hc.2.1⟩, hc.2.2⟩) hr
    · intro rv h
      simp only [reviewNew2, ht] at h
      split_ifs at h
      all_goals first
        | exact Except.noConfusion h
        | (injection h with h'; subst h'; rfl)
  · intro v
    have hne : RevPayload.isEmptyDict ⟨some (.vstr "p"), some v, none⟩ = false := by
      simp [RevPayload.isEmptyDict]
    have hpt : (getPVal (some (PVal.vstr "p"))).truthy = true := by decide
    by_cases hvn : v = .vnone
    · subst hvn
      simp [validate_review_data, hne, hpt, pyToInt]
    · rcases hn : pyToInt v with _ | n
      · simp [validate_review_data, hne, hpt, hvn, hn]
      · by_cases h15 : 1 ≤ n ∧ n ≤ 5
        · simp [validate_review_data, hne, hpt, hvn, hn, h15]
        · simp only [validate_review_data, hne, hpt, Bool.not_true,
            Bool.false_eq_true, if_false]
          rw [if_neg hvn, hn]
          simp only [Option.some.injEq]
          constructor
          · intro hc
            rw [if_neg h15] at hc
            exact absurd hc (by simp)
          · rintro ⟨m, rfl, hm1, hm5⟩
            exact absurd ⟨hm1, hm5⟩ h15
  · intro r h1 h5
    have hne : RevPayload.isEmptyDict ⟨some (.vstr "p"), some (.vint r), none⟩ = false := by
      simp [RevPayload.isEmptyDict]
    have hpt : (getPVal (some (PVal.vstr "p"))).truthy = true := by decide
    constructor
    · simp only [validate_review_data, hne, hpt, Bool.not_true, Bool.false_eq_true,
        if_false]
      rw [if_neg (by simp : ¬ PVal.vint r = PVal.vnone)]
      simp only [pyToInt]
      rw [if_pos ⟨h1, h5⟩]
    · simp only [reviewNew2, ht]
      rw [if_neg (by simp [ratingValidate2, pyIsInt, pyIntValue, h1, h5])]

/-- Witness for C3: the integer rating 4 passes payload validation and
    the `Review` constructor stores it. -/
theorem review_rating_bounds_amended_witness :
    validate_review_data ⟨some (.vstr "p"), some (.vint 4), none⟩ = (true, "") ∧
    reviewNew2 "r" (.vstr "ok") (.vint 4) (.vstr "p") (.vstr "u")
      = .ok ⟨"r", "ok", .vint 4, .vstr "p", .vstr "u"⟩ :=
  review_rating_bounds_amended.2.2 4 (by decide) (by decide)

theorem atMostOne_def (db : List (String × MockReview)) :
    atMostOnePerUserPlace db ↔ db.Pairwise fun a b => distinctUserPlace a.2 b.2 :=
  Iff.rfl

theorem reviewsPost_preserves (uid : Option String) (d : RevPayload)
    (ps : List FPlace) (freshId : String) (db : List (String × MockReview))
    (h : atMostOnePerUserPlace db) :
    atMostOnePerUserPlace (reviewsPost uid d ps freshId db).2 := by
  rcases uid with _ | u
  · exact h
  · simp only [reviewsPost]
    rcases hv : (validate_review_data d).1 with _ | _
    · simpa [hv] using h
    · simp only [hv, Bool.not_true, Bool.false_eq_true, if_false]
      rcases hpl : facadeGetPlace ps (getPVal d.place_id) with _ | pl
      · simpa [hpl] using h
      · simp only [hpl]
        by_cases how : pl.owner_id = u
        · simpa [how] using h
        · rw [if_neg how]
          rcases hf : (db.find? fun e =>
              pyEq e.2.user_id (.vstr u) && pyEq e.2.place_id (getPVal d.place_id))
            with _ | e
          · simp only [hf, Option.isSome_none, Bool.false_eq_true, if_false]
            refine pairwise_dictInsert_of_all (R := distinctUserPlace) h ?_
            intro e he
            have hne := List.find?_eq_none.mp hf e he
            constructor
            · rintro ⟨h1, h2⟩
              exact hne (by simp only [h1, h2]; simp [pyEq_refl])
            · rintro ⟨h1, h2⟩
              exact hne (by simp only [← h1, ← h2]; simp [pyEq_refl])
          · simpa [hf] using h

theorem reviewPut_preserves (uid : Option String) (adm : Bool) (rid : String)
    (d : Option RevUpdatePayload) (db : List (String × MockReview))
    (hd : ∀ dd, d = some dd → dd.noRekey = true)
    (h : atMostOnePerUserPlace db) :
    atMostOnePerUserPlace (reviewPut uid adm rid d db).2 := by
  simp only [reviewPut]
  by_cases h0 : rid = ""
  · simpa [h0] using h
  · rw [if_neg h0]
    rcases uid with _ | u
    · exact h
    · rcases hg : dictGet rid db with _ | r
      · simpa [hg] using h
      · simp only [hg]
        by_cases hown : (!pyEq r.user_id (.vstr u) && !adm) = true
        · simpa [hown] using h
        · rw [if_neg hown]
          rcases d with _ | dd
          · exact h
          · show atMostOnePerUserPlace
              (if dd.isEmptyDict = false ∧ dd.rating ≠ none then
                match pyToInt (getPVal dd.rating) with
                | none => (400, db)
                | some rv =>
                  if ¬(1 ≤ rv ∧ rv ≤ 5) then (400, db)
                  else (200, dictInsert rid (applyRevUpdate r dd) db)
              else (200, dictInsert rid (applyRevUpdate r dd) db)).2
            have hnr := hd dd rfl
            have hu : updField r.user_id dd.user_id = r.user_id := by
              rcases hdu : dd.user_id with _ | v
              · rfl
              · have hv : v = .vnone := by
                  simp [RevUpdatePayload.noRekey, hdu] at hnr
                  exact hnr.2
                subst hv; simp [updField]
            have hp : updField r.place_id dd.place_id = r.place_id := by
              rcases hdp : dd.place_id with _ | v
              · rfl
              · have hv : v = .vnone := by
                  simp [RevUpdatePayload.noRekey, hdp] at hnr
                  exact hnr.1
                subst hv; simp [updField]
            have happly : atMostOnePerUserPlace
                (dictInsert rid (applyRevUpdate r dd) db) := by
              refine pairwise_dictInsert_of_congr (R := distinctUserPlace) hg h ?_
              intro x
              constructor
              · intro hx hc
                exact hx ⟨by simpa [applyRevUpdate, hu] using hc.1,
                          by simpa [applyRevUpdate, hp] using hc.2⟩
              · intro hx hc
                exact hx ⟨by simpa [applyRevUpdate, hu] using hc.1,
                          by simpa [applyRevUpdate, hp] using hc.2⟩
            by_cases hcond : dd.isEmptyDict = false ∧ dd.rating ≠ none
            · rw [if_pos hcond]
              rcases hri : pyToInt (getPVal dd.rating) with _ | rv
              · exact h
              · by_cases h15 : ¬(1 ≤ rv ∧ rv ≤ 5)
                · simpa [h15] using h
                · simpa [h15] using happly
            · rw [if_neg hcond]
              exact happly

theorem reviewDelete_preserves (uid : Option String) (adm : Bool) (rid : String)
    (db : List (String × MockReview))
    (h : atMostOnePerUserPlace db) :
    atMostOnePerUserPlace (reviewDelete uid adm rid db).2 := by
  simp only [reviewDelete]
  by_cases h0 : rid = ""
  · simpa [h0] using h
  · rw [if_neg h0]
    rcases uid with _ | u
    · exact h
    · rcases hg : dictGet rid db with _ | r
      · simpa [hg] using h
      · simp only [hg]
        by_cases hown : (!pyEq r.user_id (.vstr u) && !adm) = true
        · simpa [hown] using h
        · rw [if_neg hown]
          exact (h.sublist (dictRemove_sublist rid db))

/-- C6 counterexample: a store reachable from empty through the review
    endpoints in which user "u" holds two reviews of place "p1" — the
    PUT handler copies a `place_id` from the payload, so "at most one
    review per (user, place)" is not an invariant of the endpoints as
    claimed. -/
theorem review_unique_pair_counterexample :
    ReviewsReach c6Db ∧ ¬ atMostOnePerUserPlace c6Db := by
  constructor
  · exact ReviewsReach.put _ _ _ _ _
      (ReviewsReach.post _ _ _ _ _
        (ReviewsReach.post _ _ _ _ _ ReviewsReach.init))
  · decide

/-- C6 (amended): "at most one review per (user, place)" is an
    invariant of the review endpoints as long as no update payload
    supplies a (non-null) `place_id` or `user_id`; and a second POST by
    the same user for the same place answers 409 and adds nothing. -/
theorem review_unique_pair_amended :
    (∀ db, ReviewsReachNoRekey db → atMostOnePerUserPlace db) ∧
    (∀ (db : List (String × MockReview)) (uid : String) (d : RevPayload)
        (ps : List FPlace) (freshId : String) (pl : FPlace)
        (e : String × MockReview),
      e ∈ db →
      pyEq e.2.user_id (.vstr uid) = true →
      pyEq e.2.place_id (getPVal d.place_id) = true →
      (validate_review_data d).1 = true →
      facadeGetPlace ps (getPVal d.place_id) = some pl →
      pl.owner_id ≠ uid →
      reviewsPost (some uid) d ps freshId db = (409, db)) := by
  constructor
  · intro db h
    induction h with
    | init => simp [atMostOnePerUserPlace]
    | post db uid d ps freshId _ ih => exact reviewsPost_preserves uid d ps freshId db ih
    | put db uid adm rid d hd _ ih => exact reviewPut_preserves uid adm rid d db hd ih
    | del db uid adm rid _ ih => exact reviewDelete_preserves uid adm rid db ih
  · intro db uid d ps freshId pl e he hu hp hval hpl hown
    simp only [reviewsPost, hval, Bool.not_true, Bool.false_eq_true, if_false, hpl]
    rw [if_neg hown]
    have hsome : (db.find? fun e =>
        pyEq e.2.user_id (.vstr uid) && pyEq e.2.place_id (getPVal d.place_id)).isSome
        = true := by
      rw [List.find?_isSome]
      exact ⟨e, he, by simp [hu, hp]⟩
    simp [hsome]

/-- Witness for the amended C6: after one post the invariant holds, and
    reposting the same (user, place) pair answers 409 without change. -/
theorem review_unique_pair_amended_witness :
    atMostOnePerUserPlace
      ((reviewsPost (some "u") ⟨some (.vstr "p1"), some (.vint 5), none⟩ c6Places "r1"
        []).2) ∧
    reviewsPost (some "u") ⟨some (.vstr "p1"), some (.vint 5), none⟩ c6Places "r9"
      ((reviewsPost (some "u") ⟨some (.vstr "p1"), some (.vint 5), none⟩ c6Places "r1"
        []).2)
      = (409, (reviewsPost (some "u") ⟨some (.vstr "p1"), some (.vint 5), none⟩ c6Places "r1"
        []).2) :=
  ⟨review_unique_pair_amended.1 _
      (ReviewsReachNoRekey.post _ _ _ _ _ ReviewsReachNoRekey.init),
   review_unique_pair_amended.2 _ "u" _ c6Places "r9" ⟨"p1", "o"⟩
      ("r1", ⟨.vstr "r1", .vstr "p1", .vstr "u", .vint 5, .vnone⟩)
      (by decide) (by decide) (by decide) (by decide) (by decide) (by decide)⟩

/-- C7: PUT on a place by an authenticated non-owner answers 403 and
    leaves the place store (hence the place's fields) unchanged — the
    ownership check runs before the payload is even validated. -/
theorem nonowner_place_put_403
    (uid : String) (pid : String) (d : Option PlaceUpdatePayload)
    (db : List (String × MockPlace)) (pl : MockPlace)
    (hpid : pid ≠ "")
    (hget : dictGet pid db = some pl)
    (hown : pyEq pl.owner_id (.vstr uid) = false) :
    placePut (some uid) pid d db = (403, db) := by
  simp only [placePut]
  rw [if_neg hpid]
  simp only [hget]
  rw [if_pos (by simp [hown])]

/-- Witness for C7: user "v" PUTs the place of owner "u" and gets 403
    with the store unchanged. -/
theorem nonowner_place_put_403_witness :
    placePut (some "v") "p1" none
      [("p1", ⟨.vstr "p1", .vstr "n", .vnone, .vnone, .vnone, .vnone, .vnone,
        .vnone, .vstr "u"⟩)]
      = (403, [("p1", ⟨.vstr "p1", .vstr "n", .vnone, .vnone, .vnone, .vnone,
        .vnone, .vnone, .vstr "u"⟩)]) :=
  nonowner_place_put_403 "v" "p1" none _
    ⟨.vstr "p1", .vstr "n", .vnone, .vnone, .vnone, .vnone, .vnone, .vnone,
      .vstr "u"⟩ (by decide) (by decide) (by decide)

/- ### Membership facts about the email regex (needed to relate the
   regex to `_validate_email`'s containment checks in part 3) -/

theorem mem_of_mem_stripChars {c : Char} {cs : List Char}
    (h : c ∈ stripChars cs) : c ∈ cs := by
  simp only [stripChars, List.mem_reverse] at h
  exact (List.dropWhile_sublist _).subset
    (List.mem_reverse.mp ((List.dropWhile_sublist _).subset h))

theorem emailRegexMatch_mem {s : String} (h : emailRegexMatch s = true) :
    '@' ∈ s.data ∧ '.' ∈ s.data := by
  simp only [emailRegexMatch] at h
  split at h
  · rename_i dom heq
    have hat : '@' ∈ s.data :=
      (List.dropWhile_sublist _).subset (heq ▸ List.mem_cons_self '@' dom)
    refine ⟨hat, ?_⟩
    simp only [Bool.and_eq_true] at h
    have hdom := h.2
    simp only [emailDomOk, List.any_eq_true] at hdom
    obtain ⟨i, _, hi⟩ := hdom
    simp only [Bool.and_eq_true, decide_eq_true_eq] at hi
    have hdot : '.' ∈ dom := by
      obtain ⟨hlt, hv⟩ := List.getElem?_eq_some.mp hi.1.1.1
      exact hv ▸ List.getElem_mem hlt
    exact (List.dropWhile_sublist _).subset
      (heq ▸ List.mem_cons_of_mem '@' hdot)
  · exact absurd h (by simp)

/-- C2 counterexample: a stored account with the unnormalized email
    "X@Y.com" (reachable, since the admin update endpoint stores emails
    verbatim) and a registration request with exactly that email: the
    endpoint answers 201 and adds a user instead of the claimed 409
    with no addition. -/
theorem duplicate_email_registration_counterexample :
    ((usersPost "a2" none (some c2Payload) c2Db).1 = 201 ∧
     (usersPost "a2" none (some c2Payload) c2Db).2.1.length = c2Db.length + 1) ∧
    c2Payload.email = some (.vstr "X@Y.com") ∧
    (∃ u ∈ c2Db, u.email = "X@Y.com") := by
  refine ⟨⟨by decide, by decide⟩, rfl, ⟨_, List.mem_cons_self _ _, rfl⟩⟩

theorem nameOk_normalize {v : PVal} (h : nameOk v = true) :
    ∃ o, normalizeName3 v = .ok o := by
  by_cases ht : v.truthy = true
  · cases v with
    | vstr s => exact ⟨some (pyStrip s), by simp [normalizeName3, ht]⟩
    | vnone => simp [PVal.truthy] at ht
    | vbool b => simp [nameOk, ht] at h
    | vint n => simp [nameOk, ht] at h
    | vfloat q => simp [nameOk, ht] at h
  · exact ⟨none, by simp [normalizeName3, ht]⟩

theorem usersPost_duplicate (freshId : String) (now : Option String)
    (p : RegPayload) (db : List User3) (e : String) (u : User3)
    (hNorm : ∀ w ∈ db, w.email = pyNormEmail w.email)
    (hpe : p.email = some (.vstr e))
    (hu : u ∈ db) (hue : u.email = e)
    (hvalid : users_validate_email (.vstr e) = true)
    (hpw : passwordAcceptable (getPVal p.password) = true) :
    usersPost freshId now (some p) db
      = (409, db, errBody "User with this email already exists") := by
  have he : e ≠ "" := by
    intro h0
    rw [h0] at hvalid
    simp [users_validate_email] at hvalid
  have hge : getPVal p.email = .vstr e := by simp [getPVal, hpe]
  have hne : p.isEmptyDict = false := by simp [RegPayload.isEmptyDict, hpe]
  obtain ⟨ps, hps, hlen⟩ : ∃ s, getPVal p.password = .vstr s ∧ 6 ≤ s.length := by
    rcases hv : getPVal p.password with _ | b | n | q | s <;> rw [hv] at hpw
    · simp [passwordAcceptable] at hpw
    · simp [passwordAcceptable] at hpw
    · simp [passwordAcceptable] at hpw
    · simp [passwordAcceptable] at hpw
    · exact ⟨s, rfl, by simpa [passwordAcceptable] using hpw⟩
  have hsne : ps ≠ "" := by
    intro h0; rw [h0] at hlen; exact absurd hlen (by decide)
  have hcond1 : (!(PVal.vstr e).truthy || !(PVal.vstr ps).truthy) = false := by
    simp [PVal.truthy, he, hsne]
  have hupw : users_validate_password (.vstr ps) = (true, none) := by
    simp only [users_validate_password, PVal.truthy]
    rw [show (ps != "") = true by simpa using hsne]
    simp only [Bool.not_true, Bool.false_eq_true, if_false]
    rw [if_neg (by omega)]
  have hee : e = pyNormEmail e := by
    calc e = u.email := hue.symm
    _ = pyNormEmail u.email := hNorm u hu
    _ = pyNormEmail e := by rw [hue]
  rcases hgg : get_by_email3 db e with _ | w
  · exfalso
    rw [get_by_email3, if_neg he, List.find?_eq_none] at hgg
    exact absurd (by rw [hue, ← hee]; simp : (u.email == pyNormEmail e) = true)
      (by simpa using hgg u hu)
  · simp only [usersPost]
    rw [if_neg (by simp [hne]), hge, hps]
    rw [if_neg (by simp [hcond1]), if_neg (by simp [hvalid]), hupw]
    simp only [Bool.not_true, Bool.false_eq_true, if_false, hgg]

theorem usersPost_fresh (freshId : String) (now : Option String)
    (p : RegPayload) (db : List User3) (e : String)
    (hpe : p.email = some (.vstr e))
    (hvalid : users_validate_email (.vstr e) = true)
    (hpw : passwordAcceptable (getPVal p.password) = true)
    (hfn : nameOk (getPVal p.first_name) = true)
    (hln : nameOk (getPVal p.last_name) = true)
    (hfresh : ∀ w ∈ db, w.email ≠ pyNormEmail e) :
    ∃ u : User3,
      usersPost freshId now (some p) db = (201, db ++ [u], user_to_dict u) ∧
      u.email = pyNormEmail e ∧
      "password" ∉ (user_to_dict u).map Prod.fst ∧
      "password_hash" ∉ (user_to_dict u).map Prod.fst := by
  have he : e ≠ "" := by
    intro h0
    rw [h0] at hvalid
    simp [users_validate_email] at hvalid
  have hge : getPVal p.email = .vstr e := by simp [getPVal, hpe]
  have hne : p.isEmptyDict = false := by simp [RegPayload.isEmptyDict, hpe]
  obtain ⟨ps, hps, hlen⟩ : ∃ s, getPVal p.password = .vstr s ∧ 6 ≤ s.length := by
    rcases hv : getPVal p.password with _ | b | n | q | s <;> rw [hv] at hpw
    · simp [passwordAcceptable] at hpw
    · simp [passwordAcceptable] at hpw
    · simp [passwordAcceptable] at hpw
    · simp [passwordAcceptable] at hpw
    · exact ⟨s, rfl, by simpa [passwordAcceptable] using hpw⟩
  have hsne : ps ≠ "" := by
    intro h0; rw [h0] at hlen; exact absurd hlen (by decide)
  have hcond1 : (!(PVal.vstr e).truthy || !(PVal.vstr ps).truthy) = false := by
    simp [PVal.truthy, he, hsne]
  have hupw : users_validate_password (.vstr ps) = (true, none) := by
    simp only [users_validate_password, PVal.truthy]
    rw [show (ps != "") = true by simpa using hsne]
    simp only [Bool.not_true, Bool.false_eq_true, if_false]
    rw [if_neg (by omega)]
  have hgbe : get_by_email3 db e = none := by
    rw [get_by_email3, if_neg he, List.find?_eq_none]
    intro w hw
    simpa using hfresh w hw
  have hrx : emailRegexMatch (pyStrip e) = true := by
    simpa [users_validate_email, he] using hvalid
  have hat : '@' ∈ e.data ∧ '.' ∈ e.data := by
    have h' := emailRegexMatch_mem hrx
    exact ⟨mem_of_mem_stripChars h'.1, mem_of_mem_stripChars h'.2⟩
  have hcont : (!(e.data.contains '@') || !(e.data.contains '.')) = false := by
    rw [show e.data.contains '@' = true by simpa using hat.1,
        show e.data.contains '.' = true by simpa using hat.2]
    rfl
  have huvp : user_validate_password (.vstr ps) = none := by
    rw [user_validate_password_none_iff]
    simpa [passwordAcceptable] using hlen
  obtain ⟨fn, hfn'⟩ := nameOk_normalize hfn
  obtain ⟨ln, hln'⟩ := nameOk_normalize hln
  have hnew : userNew3 freshId now (.vstr e) (.vstr ps) (getPVal p.first_name)
      (getPVal p.last_name) (p.is_admin.getD (.vbool false))
      = .ok { id := freshId, email := pyNormEmail e, password_hash := bcryptHash ps,
              first_name := fn, last_name := ln,
              is_admin := (p.is_admin.getD (.vbool false)).truthy,
              created_at := now, updated_at := now } := by
    simp only [userNew3]
    rw [if_neg he, if_neg (by simp [hat.1, hat.2]), huvp, hfn', hln']
  refine ⟨{ id := freshId, email := pyNormEmail e, password_hash := bcryptHash ps,
            first_name := fn, last_name := ln,
            is_admin := (p.is_admin.getD (.vbool false)).truthy,
            created_at := now, updated_at := now }, ?_, rfl, ?_, ?_⟩
  · simp only [usersPost]
    rw [if_neg (by simp [hne]), hge, hps]
    rw [if_neg (by simp [hcond1]), if_neg (by simp [hvalid]), hupw]
    simp only [Bool.not_true, Bool.false_eq_true, if_false, hgbe, hnew]
    have hfind2 : (db.find? fun w => w.email == pyNormEmail e) = none := by
      rw [List.find?_eq_none]
      intro w hw
      simpa using hfresh w hw
    simp [hfind2]
  · simp only [user_to_dict, List.map_cons, List.map_nil]
    decide
  · simp only [user_to_dict, List.map_cons, List.map_nil]
    decide

/-- C2 (amended): provided every stored email is in normalized
    (lower-cased, stripped) form — which registration itself always
    produces; only the admin update endpoint can break it — a
    registration request whose email equals a stored user's email (with
    valid email format and password) answers 409 and adds no user; and
    a registration whose password is valid, whose name fields are
    strings or absent/null/falsy, and whose email is valid with a
    normal form not yet stored answers 201 with the created user's
    data, which contains no password field. -/
theorem duplicate_email_registration_amended :
    (∀ (freshId : String) (now : Option String) (p : RegPayload)
        (db : List User3) (e : String) (u : User3),
      (∀ w ∈ db, w.email = pyNormEmail w.email) →
      p.email = some (.vstr e) →
      u ∈ db → u.email = e →
      users_validate_email (.vstr e) = true →
      passwordAcceptable (getPVal p.password) = true →
      (usersPost freshId now (some p) db).1 = 409 ∧
      (usersPost freshId now (some p) db).2.1 = db) ∧
    (∀ (freshId : String) (now : Option String) (p : RegPayload)
        (db : List User3) (e : String),
      p.email = some (.vstr e) →
      users_validate_email (.vstr e) = true →
      passwordAcceptable (getPVal p.password) = true →
      nameOk (getPVal p.first_name) = true →
      nameOk (getPVal p.last_name) = true →
      (∀ w ∈ db, w.email ≠ pyNormEmail e) →
      ∃ u : User3,
        usersPost freshId now (some p) db = (201, db ++ [u], user_to_dict u) ∧
        u.email = pyNormEmail e ∧
        "password" ∉ (user_to_dict u).map Prod.fst ∧
        "password_hash" ∉ (user_to_dict u).map Prod.fst) := by
  constructor
  · intro freshId now p db e u hNorm hpe hu hue hvalid hpw
    rw [usersPost_duplicate freshId now p db e u hNorm hpe hu hue hvalid hpw]
    exact ⟨rfl, rfl⟩
  · exact usersPost_fresh

/-- Witness for the amended C2: registering "x@y.com" against a table
    already holding that (normalized) email answers 409 and leaves the
    table unchanged. -/
theorem duplicate_email_registration_amended_witness :
    (usersPost "f1" none
      (some ⟨some (.vstr "x@y.com"), some (.vstr "secret123"), none, none, none⟩)
      [⟨"a1", "x@y.com", "h", none, none, false, none, none⟩]).1 = 409 ∧
    (usersPost "f1" none
      (some ⟨some (.vstr "x@y.com"), some (.vstr "secret123"), none, none, none⟩)
      [⟨"a1", "x@y.com", "h", none, none, false, none, none⟩]).2.1
      = [⟨"a1", "x@y.com", "h", none, none, false, none, none⟩] :=
  duplicate_email_registration_amended.1 "f1" none
    ⟨some (.vstr "x@y.com"), some (.vstr "secret123"), none, none, none⟩
    [⟨"a1", "x@y.com", "h", none, none, false, none, none⟩] "x@y.com"
    ⟨"a1", "x@y.com", "h", none, none, false, none, none⟩
    (by decide) rfl (by decide) rfl (by decide) (by decide)

theorem pyEq_symm (a b : PVal) : pyEq a b = pyEq b a := by
  rw [Bool.eq_iff_iff, pyEq_iff_canon, pyEq_iff_canon]
  exact eq_comm

theorem pyEq_congr_right {b c : PVal} (h : pyCanon b = pyCanon c) (a : PVal) :
    pyEq a b = pyEq a c := by
  rw [Bool.eq_iff_iff, pyEq_iff_canon, pyEq_iff_canon, h]

theorem facadeCreateUser2_snd (freshId : String)
    (st : InMemoryRepository PVal User2) (d : UserData2) :
    (facadeCreateUser2 freshId st d).2 = st := by
  simp only [facadeCreateUser2]
  by_cases h1 : (!((getPVal d.email).truthy && (getPVal d.password).truthy)) = true
  · rw [if_pos h1]
  · rw [if_neg h1]
    by_cases h2 : (userRepoFindByEmail st (getPVal d.email)).isSome = true
    · rw [if_pos h2]
    · rw [if_neg h2]
      have hpw : d.password ≠ none := by
        intro h0
        exact h1 (by simp [h0, getPVal, PVal.truthy])
      have hnew : userNew2 freshId d = .error .typeError := by
        rw [userNew2, if_pos (Or.inl hpw)]
      rw [hnew]

theorem facadeUpdateUser2_preserves (st : InMemoryRepository PVal User2)
    (uid : PVal) (d : UserData2) (h : emailsDistinct st) :
    emailsDistinct (facadeUpdateUser2 st uid d).2 := by
  simp only [facadeUpdateUser2]
  rcases hg : st.get uid with _ | u
  · simpa [hg] using h
  · simp only [hg]
    have hg' : dictGet uid st._storage = some u := hg
    by_cases hc : d.email ≠ none ∧ pyEq (getPVal d.email) u.email = false
    · rw [if_pos hc]
      by_cases hf : (userRepoFindByEmail st (getPVal d.email)).isSome = true
      · rw [if_pos hf]; exact h
      · rw [if_neg hf]
        simp only [InMemoryRepository.updateObj, hg']
        have hmail : (applyUserUpdate2 u d).email = getPVal d.email := by
          rcases hde : d.email with _ | v
          · exact absurd hde hc.1
          · simp [applyUserUpdate2, hde, getPVal]
        have hnone : ∀ e ∈ st._storage, pyEq e.2.email (getPVal d.email) = false := by
          intro e he
          by_contra hx
          exact hf (by
            rw [userRepoFindByEmail, List.find?_isSome]
            exact ⟨e, he, by simpa using hx⟩)
        refine pairwise_dictInsert_of_all
          (R := fun a b : User2 => pyEq a.email b.email = false) h ?_
        intro e he
        constructor
        · show pyEq e.2.email (applyUserUpdate2 u d).email = false
          rw [hmail]; exact hnone e he
        · show pyEq (applyUserUpdate2 u d).email e.2.email = false
          rw [pyEq_symm, hmail]
          exact hnone e he
    · rw [if_neg hc]
      simp only [InMemoryRepository.updateObj, hg']
      have hca : pyCanon (applyUserUpdate2 u d).email = pyCanon u.email := by
        rcases hde : d.email with _ | v
        · simp [applyUserUpdate2, hde]
        · have hpe : pyEq (getPVal d.email) u.email = true := by
            rcases hb : pyEq (getPVal d.email) u.email with _ | _
            · exact absurd ⟨by simp [hde], hb⟩ hc
            · rfl
          have hcv := (pyEq_iff_canon _ _).mp hpe
          simpa [applyUserUpdate2, hde, getPVal] using hcv
      refine pairwise_dictInsert_of_congr
        (R := fun a b : User2 => pyEq a.email b.email = false) hg' h ?_
      intro x
      constructor
      · intro hx
        show pyEq x.email (applyUserUpdate2 u d).email = false
        rw [pyEq_congr_right hca]
        exact hx
      · intro hx
        show pyEq (applyUserUpdate2 u d).email x.email = false
        rw [pyEq_symm, pyEq_congr_right hca, pyEq_symm]
        exact hx

theorem facadeDeleteUser2_preserves (st : InMemoryRepository PVal User2)
    (uid : PVal) (h : emailsDistinct st) :
    emailsDistinct (facadeDeleteUser2 st uid).2 := by
  simp only [facadeDeleteUser2]
  rcases hg : st.get uid with _ | u
  · simpa [hg] using h
  · simp only [hg, InMemoryRepository.delete]
    by_cases hc : dictContains uid st._storage = true
    · rw [if_pos hc]
      exact h.sublist (dictRemove_sublist _ _)
    · rw [if_neg hc]
      exact h

/-- C1: email uniqueness is an invariant of the part-2 user store —
    every state reachable from empty repositories through the facade
    user operations has pairwise `==`-distinct emails; `create_user`
    returns `None` without adding a user whenever a stored user already
    has the requested email; and `update_user` returns `False` without
    applying the change whenever the new email belongs to a stored
    user. -/
theorem user_email_uniqueness :
    (∀ st, UserFacadeReach st → emailsDistinct st) ∧
    (∀ (freshId : String) (st : InMemoryRepository PVal User2) (d : UserData2)
        (e : PVal × User2),
      e ∈ st._storage → pyEq e.2.email (getPVal d.email) = true →
      facadeCreateUser2 freshId st d = (none, st)) ∧
    (∀ (st : InMemoryRepository PVal User2) (uid : PVal) (d : UserData2)
        (u : User2) (e : PVal × User2),
      st.get uid = some u →
      d.email ≠ none →
      pyEq (getPVal d.email) u.email = false →
      e ∈ st._storage → pyEq e.2.email (getPVal d.email) = true →
      facadeUpdateUser2 st uid d = (false, st)) := by
  refine ⟨?_, ?_, ?_⟩
  · intro st h
    induction h with
    | init => simp [emailsDistinct, InMemoryRepository.empty]
    | create st freshId d _ ih => rw [facadeCreateUser2_snd]; exact ih
    | upd st uid d _ ih => exact facadeUpdateUser2_preserves st uid d ih
    | del st uid _ ih => exact facadeDeleteUser2_preserves st uid ih
  · intro freshId st d e he hm
    simp only [facadeCreateUser2]
    by_cases h1 : (!((getPVal d.email).truthy && (getPVal d.password).truthy)) = true
    · rw [if_pos h1]
    · rw [if_neg h1]
      have hs : (userRepoFindByEmail st (getPVal d.email)).isSome = true := by
        rw [userRepoFindByEmail, List.find?_isSome]
        exact ⟨e, he, hm⟩
      rw [if_pos hs]
  · intro st uid d u e hg hde hne he hm
    simp only [facadeUpdateUser2, hg]
    rw [if_pos ⟨hde, hne⟩]
    have hs : (userRepoFindByEmail st (getPVal d.email)).isSome = true := by
      rw [userRepoFindByEmail, List.find?_isSome]
      exact ⟨e, he, hm⟩
    rw [if_pos hs]

/-- Witness for C1: creating a second user with an email already held
    by a stored user returns `None` and leaves the repository
    untouched. -/
theorem user_email_uniqueness_witness :
    facadeCreateUser2 "f2"
      ⟨[(PVal.vstr "i1",
        ⟨.vstr "i1", .vstr "A", .vstr "B", .vstr "a@b.co", .vbool false⟩)], 1⟩
      ⟨none, some (.vstr "C"), some (.vstr "D"), some (.vstr "a@b.co"),
        some (.vstr "pw1234"), none⟩
      = (none, ⟨[(PVal.vstr "i1",
        ⟨.vstr "i1", .vstr "A", .vstr "B", .vstr "a@b.co", .vbool false⟩)], 1⟩) :=
  user_email_uniqueness.2.1 "f2" _ _
    (PVal.vstr "i1", ⟨.vstr "i1", .vstr "A", .vstr "B", .vstr "a@b.co", .vbool false⟩)
    (List.mem_cons_self _ _) (by decide)

end HBnB
